import Mathlib

/-!
Shallow embedding of the RTP/RTCP sender implemented in
media/libstagefright/wifi-display/source/Sender.cpp.

Byte buffers are modelled as lists of natural numbers; each stored byte is
reduced modulo 256 exactly where the C++ code assigns to a uint8_t.  Machine
integer arithmetic is modelled on Nat or Int with explicit reductions modulo
the word size at the points where the original types wrap (uint16_t sequence
numbers, uint32_t counters and timestamps, uint64_t NTP values).  Reads
outside a buffer are modelled as returning 0; the claims checked below never
depend on such reads.
-/

set_option maxRecDepth 4000

namespace WifiDisplaySender

/-- Maximum RTP packet size in bytes (Sender.cpp, kMaxRTPPacketSize). -/
def kMaxRTPPacketSize : Nat := 1500

/-- Maximum whole number of 188-byte TS packets that fit in an RTP packet
together with the 12-byte header (Sender.cpp, kMaxNumTSPacketsPerRTPPacket). -/
def kMaxNumTSPacketsPerRTPPacket : Nat := (kMaxRTPPacketSize - 12) / 188

/-- Capacity of the TS accumulation buffer: the Sender constructor allocates
an ABuffer of 12 + kMaxNumTSPacketsPerRTPPacket * 188 bytes. -/
def tsQueueCapacity : Nat := 12 + kMaxNumTSPacketsPerRTPPacket * 188

/-- Result statuses returned by the RTCP parsing functions, mirroring the
status_t values OK, ERROR_MALFORMED and ERROR_UNSUPPORTED. -/
inductive Status where
  | ok
  | malformed
  | unsupported
deriving DecidableEq

/-- Entry of the retransmission history: a previously flushed RTP packet
tagged with its 16-bit sequence number.  The code stores the number with
setInt32Data(mRTPSeqNo - 1) right after the increment and recovers it as
int32Data() with an and of 0xffff, which yields exactly the 16-bit sequence
number that was stamped into the packet; the seq field holds that value. -/
structure HistPkt where
  seq : Nat
  bytes : List Nat
deriving DecidableEq, Inhabited

/-- Modelled from the spec: configuration constants declared in the Sender
header, which is not among the sources (the fixed 32-bit source identifier,
the interleaved transport flag and RTP channel number, the retransmission
feature gate, and the fixed maximum history length).  The spec fixes their
meaning but not all of their values, so they are kept abstract here. -/
structure Config where
  sourceID : Nat
  interleaved : Bool
  rtpChannel : Nat
  retransEnabled : Bool
  maxHistoryLength : Nat
deriving DecidableEq

/-- RTP bookkeeping state of the Sender.  Field widths follow the spec
(16-bit wrapping sequence numbers, 32-bit packet and octet counts): the
state invariants keep rtpSeqNo and rtpRetransmissionSeqNo below 65536 and
the counters below 2 ^ 32. -/
structure SenderState where
  tsQueue : List Nat
  rtpSeqNo : Nat
  numRTPSent : Nat
  numRTPOctetsSent : Nat
  lastRTPTime : Nat
  lastNTPTime : Nat
  history : List HistPkt
  rtpRetransmissionSeqNo : Nat
deriving DecidableEq

/-- Outgoing effect of a flush: either a binary-data notification carrying
the packet on the interleaved RTP channel, or a datagram sent over the RTP
session via the network session. -/
inductive SendEvent where
  | binaryData (channel : Nat) (bytes : List Nat)
  | datagram (bytes : List Nat)
deriving DecidableEq

/-- Byte contents of a send event. -/
def SendEvent.payload : SendEvent → List Nat
  | .binaryData _ b => b
  | .datagram b => b

/-- Big-endian 16-bit read at offset i (U16_AT); reads outside the list
yield 0. -/
def U16At (data : List Nat) (i : Nat) : Nat :=
  data.getD i 0 <<< 8 ||| data.getD (i + 1) 0

/-- Big-endian 32-bit read at offset i (U32_AT); reads outside the list
yield 0. -/
def U32At (data : List Nat) (i : Nat) : Nat :=
  data.getD i 0 <<< 24 ||| data.getD (i + 1) 0 <<< 16 |||
    data.getD (i + 2) 0 <<< 8 ||| data.getD (i + 3) 0

/-- NTP timestamp derived from the monotonic clock (Sender::GetNowNTP),
with uint64 arithmetic made explicit. -/
def GetNowNTP (nowUs0 : Nat) : Nat :=
  let nowUs := nowUs0 + ((70 * 365 + 17) * 24) * 60 * 60 * 1000000
  let hi := nowUs / 1000000
  let lo := 2 ^ 32 * (nowUs % 1000000) / 1000000
  (hi <<< 32) % 2 ^ 64 ||| lo

/-- Bytes rtp[0] through rtp[11] written at flush time by
Sender::appendTSData: fixed first byte 0x80, payload type 33 with the
marker bit from timeDiscontinuity, big-endian sequence number, big-endian
32-bit RTP timestamp and big-endian 32-bit source identifier. -/
def stampRTPHeader (sourceID seqNo rtpTime : Nat) (timeDiscontinuity : Bool) :
    List Nat :=
  [0x80,
   33 ||| (if timeDiscontinuity then 1 <<< 7 else 0),
   seqNo >>> 8 &&& 0xff,
   seqNo &&& 0xff,
   rtpTime >>> 24 % 256,
   rtpTime >>> 16 &&& 0xff,
   rtpTime >>> 8 &&& 0xff,
   rtpTime &&& 0xff,
   sourceID >>> 24 % 256,
   sourceID >>> 16 &&& 0xff,
   sourceID >>> 8 &&& 0xff,
   sourceID &&& 0xff]

/-- Flush branch of Sender::appendTSData: stamp the 12-byte RTP header over
the queued bytes, advance the sequence number and the packet and octet
counts, record the RTP/NTP time mapping, emit the packet, and, when
retransmission is enabled, append it to the history, evicting and recycling
the oldest entry once the bound is exceeded (otherwise a fresh buffer is
allocated, modelled as 12 zero bytes whose contents are never read before
the next stamp overwrites them).  The queue is reset to header-only length
by setRange(0, 12), modelled by take 12. -/
def flushTSQueue (cfg : Config) (nowUs ntpNowUs : Nat) (s : SenderState)
    (q : List Nat) (timeDiscontinuity : Bool) : SenderState × SendEvent :=
  let rtpTime := nowUs * 9 / 100 % 2 ^ 32
  let stamped := stampRTPHeader cfg.sourceID s.rtpSeqNo rtpTime timeDiscontinuity
      ++ q.drop 12
  let ev := if cfg.interleaved then SendEvent.binaryData cfg.rtpChannel stamped
      else SendEvent.datagram stamped
  let s1 : SenderState :=
    { s with
      rtpSeqNo := (s.rtpSeqNo + 1) % 65536
      numRTPSent := (s.numRTPSent + 1) % 2 ^ 32
      numRTPOctetsSent := (s.numRTPOctetsSent + (q.length - 12)) % 2 ^ 32
      lastRTPTime := rtpTime
      lastNTPTime := GetNowNTP ntpNowUs }
  if cfg.retransEnabled then
    let hist1 := s.history ++ [⟨s.rtpSeqNo, stamped⟩]
    if cfg.maxHistoryLength < hist1.length then
      ({ s1 with history := hist1.tail, tsQueue := hist1.headI.bytes.take 12 }, ev)
    else
      ({ s1 with history := hist1, tsQueue := List.replicate 12 0 }, ev)
  else
    ({ s1 with tsQueue := stamped.take 12 }, ev)

/-- Sender::appendTSData for one TS packet: the two CHECK assertions
(size equal to 188 and the append fitting in the buffer) are modelled by
returning none; otherwise the packet is appended and a flush happens
exactly when the flush argument is set or the buffer is full.  The nowUs
argument is the clock read at the start of the flush and ntpNowUs the
second read used for the NTP mapping. -/
def appendTSData (cfg : Config) (nowUs ntpNowUs : Nat) (s : SenderState)
    (data : List Nat) (timeDiscontinuity flush : Bool) :
    Option (SenderState × Option SendEvent) :=
  if data.length ≠ 188 then none
  else if tsQueueCapacity < s.tsQueue.length + data.length then none
  else
    let q := s.tsQueue ++ data
    if flush = true ∨ q.length = tsQueueCapacity then
      let r := flushTSQueue cfg nowUs ntpNowUs s q timeDiscontinuity
      some (r.1, some r.2)
    else
      some ({ s with tsQueue := q }, none)

/-- One invocation of appendTSData inside a run: the TS packet together
with the flags passed by the caller and the clock values observed if this
step flushes. -/
structure AppendStep where
  nowUs : Nat
  ntpNowUs : Nat
  data : List Nat
  timeDiscontinuity : Bool
  flush : Bool
deriving DecidableEq

/-- Run a sequence of appendTSData calls, collecting every flushed packet
in order; none when some call violates a CHECK assertion. -/
def runAppend (cfg : Config) : SenderState → List AppendStep →
    Option (SenderState × List SendEvent)
  | s, [] => some (s, [])
  | s, st :: rest =>
    match appendTSData cfg st.nowUs st.ntpNowUs s st.data
        st.timeDiscontinuity st.flush with
    | none => none
    | some (s1, ev) =>
      match runAppend cfg s1 rest with
      | none => none
      | some (s2, evs) => some (s2, ev.toList ++ evs)

/-- Sequence number carried in an outgoing RTP packet, decoded big-endian
from bytes 2 and 3 as a receiver would. -/
def rtpSeqOf (bytes : List Nat) : Nat := U16At bytes 2

/-- Retransmission packet built by Sender::parseTSFB for a matched history
entry: the original 12-byte header (memcpy of buffer bytes 0 through 11)
with bytes 2 and 3 overwritten by the retransmission sequence counter, then
2 bytes holding the original sequence number, then the original payload. -/
def buildRetransPacket (retransSeqNo : Nat) (pkt : HistPkt) : List Nat :=
  pkt.bytes.take 2 ++
    [retransSeqNo >>> 8 &&& 0xff, retransSeqNo &&& 0xff] ++
    (pkt.bytes.take 12).drop 4 ++
    [pkt.seq >>> 8 &&& 0xff, pkt.seq &&& 0xff] ++
    pkt.bytes.drop 12

/-- Inner bit loop of Sender::parseTSFB over the 16 bits of a NACK bitmask:
for each set bit i with bufferSeqNo equal to (seqNo + i + 1) mod 65536 the
bit is cleared (an and with the uint16 complement of 1 <<< i) and the entry
is marked for retransmission.  Returns the updated bitmask and the flag. -/
def nackBitScan (seqNo bufferSeqNo blp : Nat) : Nat × Bool :=
  (List.range 16).foldl
    (fun acc i =>
      if acc.1 &&& (1 <<< i) ≠ 0 ∧ bufferSeqNo = (seqNo + i + 1) % 65536 then
        (acc.1 &&& (0xffff ^^^ (1 <<< i)), true)
      else acc)
    (blp, false)

/-- History scan of Sender::parseTSFB for one 4-byte NACK entry: walk the
history from oldest to newest carrying the remaining bitmask, the
retransmission counter and the found-base flag; every matched entry emits a
retransmission packet and bumps the counter, and the walk stops early once
the base was found and the bitmask is exhausted.  Returns the emitted
packets in order and the final counter value. -/
def processNACKEntry (seqNo : Nat) :
    List HistPkt → Nat → Nat → Bool → List (List Nat) × Nat
  | [], _, rseq, _ => ([], rseq)
  | e :: rest, blp, rseq, found =>
    if e.seq = seqNo then
      let pkt := buildRetransPacket rseq e
      let rseq1 := (rseq + 1) % 65536
      if blp = 0 then ([pkt], rseq1)
      else
        let r := processNACKEntry seqNo rest blp rseq1 true
        (pkt :: r.1, r.2)
    else if blp ≠ 0 then
      let sc := nackBitScan seqNo e.seq blp
      if sc.2 then
        let pkt := buildRetransPacket rseq e
        let rseq1 := (rseq + 1) % 65536
        if found ∧ sc.1 = 0 then ([pkt], rseq1)
        else
          let r := processNACKEntry seqNo rest sc.1 rseq1 found
          (pkt :: r.1, r.2)
      else processNACKEntry seqNo rest blp rseq found
    else processNACKEntry seqNo rest blp rseq found

/-- Packets produced when the entries of a list are retransmitted in order
with consecutive (mod 65536) retransmission sequence numbers starting at c:
the reference shape against which the history scan is checked. -/
def stampAll : Nat → List HistPkt → List (List Nat)
  | _, [] => []
  | c, e :: rest => buildRetransPacket c e :: stampAll ((c + 1) % 65536) rest

/-- Predicate for one history entry being requested by a NACK entry with
base number seqNo and bitmask blp: either the base matches directly, or
some set bit i of the bitmask matches (seqNo + i + 1) mod 65536. -/
def nackRequested (seqNo blp : Nat) (e : HistPkt) : Bool :=
  e.seq = seqNo ||
    (List.range 16).any fun i => blp.testBit i && e.seq = (seqNo + i + 1) % 65536

/-- Sender::parseTSFB on a transport-feedback sub-packet: reject format
subtypes other than 1 as unsupported, reject a source identifier mismatch
as malformed, and otherwise process every 4-byte NACK entry starting at
offset 12, returning OK together with the retransmission packets sent and
the advanced retransmission sequence counter. -/
def parseTSFB (sourceID : Nat) (hist : List HistPkt) (data : List Nat)
    (size : Nat) (rseq : Nat) : Status × List (List Nat) × Nat :=
  if data.getD 0 0 &&& 0x1f ≠ 1 then (.unsupported, [], rseq)
  else if U32At data 8 ≠ sourceID then (.malformed, [], rseq)
  else
    let n := (size - 12 + 3) / 4
    let r := (List.range n).foldl
      (fun acc k =>
        let i := 12 + 4 * k
        let seqNo := U16At data i
        let blp := U16At data (i + 2)
        let pr := processNACKEntry seqNo hist blp acc.2 false
        (acc.1 ++ pr.1, pr.2))
      (([] : List (List Nat)), rseq)
    (.ok, r.1, r.2)

/-- Sender::parseRTCP walking a compound buffer: the current window is the
data list (the size variable of the code is its length, and the padding
strip that shortens size from the end is modelled by take).  Returns the
status together with all retransmission packets emitted by transport
feedback sub-packets processed before the walk ended, and the final
retransmission sequence counter. -/
def parseRTCP (sourceID : Nat) (hist : List HistPkt) (rseq : Nat)
    (data : List Nat) : Status × List (List Nat) × Nat :=
  if data.length = 0 then (.ok, [], rseq)
  else if data.length < 8 then (.malformed, [], rseq)
  else if data.getD 0 0 >>> 6 ≠ 2 then (.unsupported, [], rseq)
  else
    let szOpt : Option Nat :=
      if data.getD 0 0 &&& 0x20 ≠ 0 then
        if data.getD (data.length - 1) 0 + 12 > data.length then none
        else some (data.length - data.getD (data.length - 1) 0)
      else some data.length
    match szOpt with
    | none => (.malformed, [], rseq)
    | some sz =>
      let headerLength := 4 * (data.getD 2 0 <<< 8 ||| data.getD 3 0) + 4
      if sz < headerLength then (.malformed, [], rseq)
      else
        let tr :=
          if data.getD 1 0 = 205 then
            let t := parseTSFB sourceID hist data headerLength rseq
            (t.2.1, t.2.2)
          else (([] : List (List Nat)), rseq)
        let r := parseRTCP sourceID hist tr.2 ((data.take sz).drop headerLength)
        (r.1, tr.1 ++ r.2.1, r.2.2)
termination_by data.length
decreasing_by
  simp only [List.length_drop, List.length_take]
  omega

/-- Framing conditions under which the claim under scrutiny asserts a
malformed result: a non-empty remainder shorter than 8 bytes, a set
padding flag whose claimed padding length exceeds the remaining size, or a
declared sub-packet length exceeding the remaining buffer; recursing over
valid sub-packets exactly as the walk does, with false at an unsupported
version where the walk stops without a malformed result. -/
def rtcpMalformedClaimed (data : List Nat) : Bool :=
  if data.length = 0 then false
  else if data.length < 8 then true
  else if data.getD 0 0 >>> 6 ≠ 2 then false
  else
    let szOpt : Option Nat :=
      if data.getD 0 0 &&& 0x20 ≠ 0 then
        if data.getD (data.length - 1) 0 > data.length then none
        else some (data.length - data.getD (data.length - 1) 0)
      else some data.length
    match szOpt with
    | none => true
    | some sz =>
      let headerLength := 4 * (data.getD 2 0 <<< 8 ||| data.getD 3 0) + 4
      if sz < headerLength then true
      else rtcpMalformedClaimed ((data.take sz).drop headerLength)
termination_by data.length
decreasing_by
  simp only [List.length_drop, List.length_take]
  omega

/-- Framing conditions under which the code actually produces a malformed
result: same as the claimed conditions except that the padding check fails
already when the claimed padding length plus a 12-byte minimum header
exceeds the remaining size. -/
def rtcpMalformedActual (data : List Nat) : Bool :=
  if data.length = 0 then false
  else if data.length < 8 then true
  else if data.getD 0 0 >>> 6 ≠ 2 then false
  else
    let szOpt : Option Nat :=
      if data.getD 0 0 &&& 0x20 ≠ 0 then
        if data.getD (data.length - 1) 0 + 12 > data.length then none
        else some (data.length - data.getD (data.length - 1) 0)
      else some data.length
    match szOpt with
    | none => true
    | some sz =>
      let headerLength := 4 * (data.getD 2 0 <<< 8 ||| data.getD 3 0) + 4
      if sz < headerLength then true
      else rtcpMalformedActual ((data.take sz).drop headerLength)
termination_by data.length
decreasing_by
  simp only [List.length_drop, List.length_take]
  omega

/-- Framing condition under which the walk consumes every sub-packet and
returns OK: the buffer splits completely into sub-packets that pass the
version, padding and length checks. -/
def rtcpConsumesAll (data : List Nat) : Bool :=
  if data.length = 0 then true
  else if data.length < 8 then false
  else if data.getD 0 0 >>> 6 ≠ 2 then false
  else
    let szOpt : Option Nat :=
      if data.getD 0 0 &&& 0x20 ≠ 0 then
        if data.getD (data.length - 1) 0 + 12 > data.length then none
        else some (data.length - data.getD (data.length - 1) 0)
      else some data.length
    match szOpt with
    | none => false
    | some sz =>
      let headerLength := 4 * (data.getD 2 0 <<< 8 ||| data.getD 3 0) + 4
      if sz < headerLength then false
      else rtcpConsumesAll ((data.take sz).drop headerLength)
termination_by data.length
decreasing_by
  simp only [List.length_drop, List.length_take]
  omega

/-- Pacing anchor state (mFirstOutputBufferReadyTimeUs and
mFirstOutputBufferSentTimeUs), both initialised to -1 by the constructor. -/
structure PacingState where
  firstOutputBufferReadyTimeUs : Int
  firstOutputBufferSentTimeUs : Int
deriving DecidableEq

/-- Initial pacing state set up by the Sender constructor. -/
def initPacing : PacingState := ⟨-1, -1⟩

/-- Sender::queuePackets: compute the deferred dispatch delay for a batch
with presentation time timeUs arriving at wall time nowUs, anchoring the
pacing clock on a call that still sees a negative first-ready time.
Returns the updated anchors together with the delay handed to the deferred
post, which is delayUs when positive and 0 otherwise. -/
def queuePackets (s : PacingState) (timeUs nowUs : Int) : PacingState × Int :=
  if s.firstOutputBufferReadyTimeUs < 0 then
    (⟨timeUs, nowUs⟩, 0)
  else
    let whenUs := timeUs - s.firstOutputBufferReadyTimeUs +
        s.firstOutputBufferSentTimeUs
    let delayUs := whenUs - nowUs
    (s, if delayUs > 0 then delayUs else 0)

/-- Run a sequence of queuePackets calls, each given as a pair of the
presentation time and the wall-clock arrival time, collecting the posted
delays in order. -/
def runQueue : PacingState → List (Int × Int) → PacingState × List Int
  | s, [] => (s, [])
  | s, (t, n) :: rest =>
    let r := queuePackets s t n
    let rr := runQueue r.1 rest
    (rr.1, r.2 :: rr.2)

/-- Configuration of Sender::init relevant to the port scan: whether a
client RTCP port was given (clientRtcp at least 0), whether the transport
is UDP (the retransmission sockets are only opened for UDP), whether
retransmission is compiled in, and the fixed retransmission port offset
(declared in the header, which is not among the sources). -/
structure InitConfig where
  clientRtcpGiven : Bool
  udp : Bool
  retransEnabled : Bool
  retransPortOffset : Nat
deriving DecidableEq

/-- One iteration of the port scan in Sender::init succeeds when the RTP
socket binds and, as required by the configuration, the RTCP socket and
the two retransmission sockets bind as well; on any later failure the
iteration destroys what it bound and the loop continues with the next
candidate. -/
def candidateSucceeds (c : InitConfig) (bindOK : Nat → Bool) (p : Nat) : Bool :=
  bindOK p &&
    (!c.clientRtcpGiven || bindOK (p + 1)) &&
    (!(c.retransEnabled && c.udp) ||
      (bindOK (p + c.retransPortOffset) && bindOK (p + 1 + c.retransPortOffset)))

/-- Port scan loop of Sender::init: starting at a candidate port, try each
candidate and advance by 2 on failure.  The source loop is unbounded
(for with no exit condition); the fuel argument caps how many iterations
are examined, and none means the loop is still running after that many
iterations, with no value returned by init. -/
def initScan (c : InitConfig) (bindOK : Nat → Bool) :
    Nat → Nat → Option Nat
  | 0, _ => none
  | fuel + 1, p =>
    if candidateSucceeds c bindOK p then some p
    else initScan c bindOK fuel (p + 2)

/-- Base candidate port of the scan (serverRtp starts at 15550). -/
def initScanBase : Nat := 15550

/-! Helper lemmas. -/

theorem or_eq_add {k b : Nat} (a : Nat) (hb : b < 2 ^ k) :
    2 ^ k * a ||| b = 2 ^ k * a + b :=
  (Nat.mul_add_lt_is_or hb a).symm

theorem be16_decode (x : Nat) (hx : x < 65536) :
    (x >>> 8 &&& 0xff) <<< 8 ||| (x &&& 0xff) = x := by
  have h255 : (0xff : Nat) = 2 ^ 8 - 1 := by norm_num
  rw [h255, Nat.and_pow_two_sub_one_eq_mod, Nat.and_pow_two_sub_one_eq_mod,
    Nat.shiftRight_eq_div_pow, Nat.shiftLeft_eq]
  have hs : x / 2 ^ 8 % 2 ^ 8 = x / 2 ^ 8 :=
    Nat.mod_eq_of_lt (by omega)
  rw [hs, mul_comm, or_eq_add (x / 2 ^ 8) (by omega)]
  omega

theorem byte_hi_of_lt (x : Nat) (hx : x < 65536) : x >>> 8 &&& 0xff = x / 256 := by
  have h255 : (0xff : Nat) = 2 ^ 8 - 1 := by norm_num
  rw [h255, Nat.and_pow_two_sub_one_eq_mod, Nat.shiftRight_eq_div_pow]
  have : x / 2 ^ 8 < 2 ^ 8 := by omega
  rw [Nat.mod_eq_of_lt this]
  norm_num

theorem byte_lo_eq_mod (x : Nat) : x &&& 0xff = x % 256 := by
  have h255 : (0xff : Nat) = 2 ^ 8 - 1 := by norm_num
  rw [h255, Nat.and_pow_two_sub_one_eq_mod]

theorem stampRTPHeader_length (a b c : Nat) (d : Bool) :
    (stampRTPHeader a b c d).length = 12 := rfl

theorem four_bytes_or (a b c d : Nat) (hb : b < 256) (hc : c < 256)
    (hd : d < 256) :
    a <<< 24 ||| b <<< 16 ||| c <<< 8 ||| d =
      a * 16777216 + b * 65536 + c * 256 + d := by
  have p24 : (2 : Nat) ^ 24 = 16777216 := by norm_num
  have p16 : (2 : Nat) ^ 16 = 65536 := by norm_num
  have p8 : (2 : Nat) ^ 8 = 256 := by norm_num
  rw [Nat.shiftLeft_eq, Nat.shiftLeft_eq, Nat.shiftLeft_eq]
  have hb1 : b * 2 ^ 16 < 2 ^ 24 := by rw [p16, p24]; omega
  have hc1 : c * 2 ^ 8 < 2 ^ 16 := by rw [p8, p16]; omega
  have hd1 : d < 2 ^ 8 := by rw [p8]; omega
  have e1 : a * 2 ^ 24 = 2 ^ 24 * a := by ring
  rw [e1, or_eq_add a hb1]
  have e2 : 2 ^ 24 * a + b * 2 ^ 16 = 2 ^ 16 * (a * 2 ^ 8 + b) := by ring
  rw [e2, or_eq_add (a * 2 ^ 8 + b) hc1]
  have e3 : 2 ^ 16 * (a * 2 ^ 8 + b) + c * 2 ^ 8 =
      2 ^ 8 * (2 ^ 8 * (a * 2 ^ 8 + b) + c) := by ring
  rw [e3, or_eq_add (2 ^ 8 * (a * 2 ^ 8 + b) + c) hd1]
  ring

theorem be32_decode (x : Nat) (hx : x < 2 ^ 32) :
    (x >>> 24 % 256) <<< 24 ||| (x >>> 16 &&& 0xff) <<< 16 |||
      (x >>> 8 &&& 0xff) <<< 8 ||| (x &&& 0xff) = x := by
  have hgen : ∀ k : Nat, x >>> k &&& 0xff = x / 2 ^ k % 256 := fun k => by
    rw [byte_lo_eq_mod, Nat.shiftRight_eq_div_pow]
  rw [hgen 16, hgen 8, byte_lo_eq_mod, Nat.shiftRight_eq_div_pow,
    four_bytes_or _ _ _ _ (Nat.mod_lt _ (by norm_num))
      (Nat.mod_lt _ (by norm_num)) (Nat.mod_lt _ (by norm_num))]
  have p24 : (2 : Nat) ^ 24 = 16777216 := by norm_num
  have p16 : (2 : Nat) ^ 16 = 65536 := by norm_num
  have p8 : (2 : Nat) ^ 8 = 256 := by norm_num
  have p32 : (2 : Nat) ^ 32 = 4294967296 := by norm_num
  rw [p24, p16, p8] at *
  omega

theorem flushTSQueue_event (cfg : Config) (nowUs ntpNowUs : Nat)
    (s : SenderState) (q : List Nat) (disc : Bool) :
    (flushTSQueue cfg nowUs ntpNowUs s q disc).2 =
      (if cfg.interleaved then
        SendEvent.binaryData cfg.rtpChannel
          (stampRTPHeader cfg.sourceID s.rtpSeqNo (nowUs * 9 / 100 % 2 ^ 32) disc
            ++ q.drop 12)
      else
        SendEvent.datagram
          (stampRTPHeader cfg.sourceID s.rtpSeqNo (nowUs * 9 / 100 % 2 ^ 32) disc
            ++ q.drop 12)) := by
  simp only [flushTSQueue]
  split_ifs <;> simp

theorem flushTSQueue_payload (cfg : Config) (nowUs ntpNowUs : Nat)
    (s : SenderState) (q : List Nat) (disc : Bool) :
    (flushTSQueue cfg nowUs ntpNowUs s q disc).2.payload =
      stampRTPHeader cfg.sourceID s.rtpSeqNo (nowUs * 9 / 100 % 2 ^ 32) disc
        ++ q.drop 12 := by
  rw [flushTSQueue_event]
  split_ifs <;> rfl

theorem flushTSQueue_counters (cfg : Config) (nowUs ntpNowUs : Nat)
    (s : SenderState) (q : List Nat) (disc : Bool) :
    (flushTSQueue cfg nowUs ntpNowUs s q disc).1.rtpSeqNo
        = (s.rtpSeqNo + 1) % 65536 ∧
      (flushTSQueue cfg nowUs ntpNowUs s q disc).1.numRTPSent
        = (s.numRTPSent + 1) % 2 ^ 32 ∧
      (flushTSQueue cfg nowUs ntpNowUs s q disc).1.numRTPOctetsSent
        = (s.numRTPOctetsSent + (q.length - 12)) % 2 ^ 32 ∧
      (flushTSQueue cfg nowUs ntpNowUs s q disc).1.rtpRetransmissionSeqNo
        = s.rtpRetransmissionSeqNo := by
  simp only [flushTSQueue]
  split_ifs <;> simp

theorem flushTSQueue_tsQueue_length (cfg : Config) (nowUs ntpNowUs : Nat)
    (s : SenderState) (q : List Nat) (disc : Bool)
    (hhist : ∀ e ∈ s.history, 12 ≤ e.bytes.length) :
    (flushTSQueue cfg nowUs ntpNowUs s q disc).1.tsQueue.length = 12 := by
  have hst : 12 ≤ (stampRTPHeader cfg.sourceID s.rtpSeqNo
      (nowUs * 9 / 100 % 2 ^ 32) disc ++ q.drop 12).length := by
    simp [stampRTPHeader]
  have hh : 12 ≤ ((s.history ++
      [(⟨s.rtpSeqNo, stampRTPHeader cfg.sourceID s.rtpSeqNo
        (nowUs * 9 / 100 % 2 ^ 32) disc ++ q.drop 12⟩ : HistPkt)]).headI).bytes.length := by
    rcases hhh : s.history with _ | ⟨a, t⟩
    · simpa using hst
    · have ha := hhist a (by rw [hhh]; exact List.mem_cons_self a t)
      simpa using ha
  simp only [flushTSQueue]
  split_ifs <;> simp only [List.length_take, List.length_replicate] <;> omega

theorem appendTSData_eq_flush (cfg : Config) (nowUs ntpNowUs : Nat)
    (s : SenderState) (data : List Nat) (disc fl : Bool)
    (hdata : data.length = 188)
    (hfit : s.tsQueue.length + 188 ≤ tsQueueCapacity)
    (hfl : fl = true ∨ s.tsQueue.length + 188 = tsQueueCapacity) :
    appendTSData cfg nowUs ntpNowUs s data disc fl =
      some ((flushTSQueue cfg nowUs ntpNowUs s (s.tsQueue ++ data) disc).1,
        some (flushTSQueue cfg nowUs ntpNowUs s (s.tsQueue ++ data) disc).2) := by
  have hcond : fl = true ∨ (s.tsQueue ++ data).length = tsQueueCapacity := by
    simpa [hdata] using hfl
  simp only [appendTSData]
  rw [if_neg (by simp [hdata]), if_neg (by rw [hdata]; omega), if_pos hcond]

theorem appendTSData_eq_append (cfg : Config) (nowUs ntpNowUs : Nat)
    (s : SenderState) (data : List Nat) (disc fl : Bool)
    (hdata : data.length = 188)
    (hfit : s.tsQueue.length + 188 ≤ tsQueueCapacity)
    (hfl : ¬(fl = true ∨ s.tsQueue.length + 188 = tsQueueCapacity)) :
    appendTSData cfg nowUs ntpNowUs s data disc fl =
      some ({ s with tsQueue := s.tsQueue ++ data }, none) := by
  have hcond : ¬(fl = true ∨ (s.tsQueue ++ data).length = tsQueueCapacity) := by
    simpa [hdata] using hfl
  simp only [appendTSData]
  rw [if_neg (by simp [hdata]), if_neg (by rw [hdata]; omega), if_neg hcond]

theorem flush_payload_seq (cfg : Config) (nowUs ntpNowUs : Nat)
    (s : SenderState) (q : List Nat) (disc : Bool)
    (hseq : s.rtpSeqNo < 65536) :
    rtpSeqOf ((flushTSQueue cfg nowUs ntpNowUs s q disc).2.payload)
      = s.rtpSeqNo := by
  rw [rtpSeqOf, U16At, flushTSQueue_payload,
    List.getD_append _ _ _ _ (by rw [stampRTPHeader_length]; norm_num),
    List.getD_append _ _ _ _ (by rw [stampRTPHeader_length]; norm_num)]
  simp only [stampRTPHeader, List.getD_cons_zero, List.getD_cons_succ]
  exact be16_decode _ hseq

theorem appendTSData_seq_step (cfg : Config) (nowUs ntpNowUs : Nat)
    (s : SenderState) (data : List Nat) (disc fl : Bool)
    (s1 : SenderState) (ev : Option SendEvent)
    (h : appendTSData cfg nowUs ntpNowUs s data disc fl = some (s1, ev))
    (hseq : s.rtpSeqNo < 65536) :
    (∀ e, ev = some e → rtpSeqOf e.payload = s.rtpSeqNo
        ∧ s1.rtpSeqNo = (s.rtpSeqNo + 1) % 65536)
      ∧ (ev = none → s1.rtpSeqNo = s.rtpSeqNo) := by
  simp only [appendTSData] at h
  split_ifs at h with h1 h2 h3
  · simp only [Option.some.injEq, Prod.mk.injEq] at h
    obtain ⟨hs1, hev⟩ := h
    subst hs1
    subst hev
    constructor
    · intro e he
      simp only [Option.some.injEq] at he
      subst he
      exact ⟨flush_payload_seq cfg nowUs ntpNowUs s (s.tsQueue ++ data) disc hseq,
        (flushTSQueue_counters cfg nowUs ntpNowUs s (s.tsQueue ++ data) disc).1⟩
    · intro hn
      simp at hn
  · simp only [Option.some.injEq, Prod.mk.injEq] at h
    obtain ⟨hs1, hev⟩ := h
    subst hs1
    subst hev
    constructor
    · intro e he
      simp at he
    · intro _
      rfl

theorem runAppend_seq (cfg : Config) :
    ∀ (steps : List AppendStep) (s s2 : SenderState) (evs : List SendEvent),
      runAppend cfg s steps = some (s2, evs) →
      s.rtpSeqNo < 65536 →
      (∀ j, j < evs.length →
        rtpSeqOf ((evs.getD j (SendEvent.datagram [])).payload)
          = (s.rtpSeqNo + j) % 65536) ∧
      s2.rtpSeqNo = (s.rtpSeqNo + evs.length) % 65536 := by
  intro steps
  induction steps with
  | nil =>
    intro s s2 evs h hs
    simp only [runAppend, Option.some.injEq, Prod.mk.injEq] at h
    obtain ⟨rfl, rfl⟩ := h
    refine ⟨fun j hj => absurd hj (by simp), ?_⟩
    simpa using (Nat.mod_eq_of_lt hs).symm
  | cons st rest ih =>
    intro s s2 evs h hs
    rw [runAppend] at h
    cases happ : appendTSData cfg st.nowUs st.ntpNowUs s st.data
        st.timeDiscontinuity st.flush with
    | none =>
      simp only [happ] at h
      exact absurd h (by simp)
    | some pr =>
      obtain ⟨s1, ev⟩ := pr
      simp only [happ] at h
      cases hrun : runAppend cfg s1 rest with
      | none =>
        simp only [hrun] at h
        exact absurd h (by simp)
      | some pr2 =>
        obtain ⟨s2x, evsx⟩ := pr2
        simp only [hrun] at h
        simp only [Option.some.injEq, Prod.mk.injEq] at h
        obtain ⟨rfl, rfl⟩ := h
        have hstep := appendTSData_seq_step cfg st.nowUs st.ntpNowUs s st.data
          st.timeDiscontinuity st.flush s1 ev happ hs
        cases ev with
        | none =>
          have hs1 : s1.rtpSeqNo = s.rtpSeqNo := hstep.2 rfl
          have := ih s1 s2x evsx hrun (by rw [hs1]; exact hs)
          rw [hs1] at this
          simpa using this
        | some e =>
          obtain ⟨he, hs1⟩ := hstep.1 e rfl
          have hlt1 : s1.rtpSeqNo < 65536 := by
            rw [hs1]; exact Nat.mod_lt _ (by norm_num)
          have hih := ih s1 s2x evsx hrun hlt1
          constructor
          · intro j hj
            cases j with
            | zero =>
              simpa [he] using (Nat.mod_eq_of_lt hs).symm
            | succ j2 =>
              have hj2 : j2 < evsx.length := by simpa using hj
              have := hih.1 j2 hj2
              rw [hs1] at this
              simp only [Option.toList, List.cons_append, List.nil_append,
                List.getD_cons_succ]
              rw [this, Nat.mod_add_mod]
              congr 1
              omega
          · have := hih.2
            rw [hs1, Nat.mod_add_mod] at this
            rw [this]
            simp only [Option.toList, List.cons_append, List.nil_append,
              List.length_cons]
            congr 1
            omega

theorem parseRTCP_status_malformed (sourceID : Nat) (hist : List HistPkt) :
    ∀ (n : Nat) (data : List Nat), data.length ≤ n → ∀ rseq : Nat,
      ((parseRTCP sourceID hist rseq data).1 = Status.malformed
        ↔ rtcpMalformedActual data = true) := by
  intro n
  induction n with
  | zero =>
    intro data hlen rseq
    have hdata : data = [] := List.length_eq_zero.mp (Nat.le_zero.mp hlen)
    subst hdata
    rw [parseRTCP.eq_def, rtcpMalformedActual.eq_def]
    simp
  | succ n ih =>
    intro data hlen rseq
    rw [parseRTCP.eq_def, rtcpMalformedActual.eq_def]
    by_cases h0 : data.length = 0
    · simp only [if_pos h0]
      exact iff_of_false (fun hc => Status.noConfusion hc) (by simp)
    · by_cases h1 : data.length < 8
      · simp only [if_neg h0, if_pos h1]
      · by_cases h2 : data.getD 0 0 >>> 6 ≠ 2
        · simp only [if_neg h0, if_neg h1, if_pos h2]
          simp
        · by_cases h3 : data.getD 0 0 &&& 0x20 ≠ 0
          · by_cases h4 : data.getD (data.length - 1) 0 + 12 > data.length
            · simp only [if_neg h0, if_neg h1, if_neg h2, if_pos h3, if_pos h4]
            · by_cases h5 : data.length - data.getD (data.length - 1) 0
                  < 4 * (data.getD 2 0 <<< 8 ||| data.getD 3 0) + 4
              · simp only [if_neg h0, if_neg h1, if_neg h2, if_pos h3, if_neg h4,
                  if_pos h5]
              · have hrest : ((data.take (data.length
                      - data.getD (data.length - 1) 0)).drop
                    (4 * (data.getD 2 0 <<< 8 ||| data.getD 3 0) + 4)).length ≤ n := by
                  simp only [List.length_drop, List.length_take]
                  omega
                simp only [if_neg h0, if_neg h1, if_neg h2, if_pos h3, if_neg h4,
                  if_neg h5]
                exact ih _ hrest _
          · by_cases h5 : data.length
                < 4 * (data.getD 2 0 <<< 8 ||| data.getD 3 0) + 4
            · simp only [if_neg h0, if_neg h1, if_neg h2, if_neg h3, if_pos h5]
            · have hrest : ((data.take data.length).drop
                  (4 * (data.getD 2 0 <<< 8 ||| data.getD 3 0) + 4)).length ≤ n := by
                simp only [List.length_drop, List.length_take]
                omega
              simp only [if_neg h0, if_neg h1, if_neg h2, if_neg h3, if_neg h5]
              exact ih _ hrest _

theorem parseRTCP_status_ok (sourceID : Nat) (hist : List HistPkt) :
    ∀ (n : Nat) (data : List Nat), data.length ≤ n → ∀ rseq : Nat,
      ((parseRTCP sourceID hist rseq data).1 = Status.ok
        ↔ rtcpConsumesAll data = true) := by
  intro n
  induction n with
  | zero =>
    intro data hlen rseq
    have hdata : data = [] := List.length_eq_zero.mp (Nat.le_zero.mp hlen)
    subst hdata
    rw [parseRTCP.eq_def, rtcpConsumesAll.eq_def]
    simp
  | succ n ih =>
    intro data hlen rseq
    rw [parseRTCP.eq_def, rtcpConsumesAll.eq_def]
    by_cases h0 : data.length = 0
    · simp only [if_pos h0]
    · by_cases h1 : data.length < 8
      · simp only [if_neg h0, if_pos h1]
        simp
      · by_cases h2 : data.getD 0 0 >>> 6 ≠ 2
        · simp only [if_neg h0, if_neg h1, if_pos h2]
          simp
        · by_cases h3 : data.getD 0 0 &&& 0x20 ≠ 0
          · by_cases h4 : data.getD (data.length - 1) 0 + 12 > data.length
            · simp only [if_neg h0, if_neg h1, if_neg h2, if_pos h3, if_pos h4]
              simp
            · by_cases h5 : data.length - data.getD (data.length - 1) 0
                  < 4 * (data.getD 2 0 <<< 8 ||| data.getD 3 0) + 4
              · simp only [if_neg h0, if_neg h1, if_neg h2, if_pos h3, if_neg h4,
                  if_pos h5]
                simp
              · have hrest : ((data.take (data.length
                      - data.getD (data.length - 1) 0)).drop
                    (4 * (data.getD 2 0 <<< 8 ||| data.getD 3 0) + 4)).length ≤ n := by
                  simp only [List.length_drop, List.length_take]
                  omega
                simp only [if_neg h0, if_neg h1, if_neg h2, if_pos h3, if_neg h4,
                  if_neg h5]
                exact ih _ hrest _
          · by_cases h5 : data.length
                < 4 * (data.getD 2 0 <<< 8 ||| data.getD 3 0) + 4
            · simp only [if_neg h0, if_neg h1, if_neg h2, if_neg h3, if_pos h5]
              simp
            · have hrest : ((data.take data.length).drop
                  (4 * (data.getD 2 0 <<< 8 ||| data.getD 3 0) + 4)).length ≤ n := by
                simp only [List.length_drop, List.length_take]
                omega
              simp only [if_neg h0, if_neg h1, if_neg h2, if_neg h3, if_neg h5]
              exact ih _ hrest _

theorem parseRTCP_truncated (sourceID : Nat) (hist : List HistPkt) (rseq : Nat)
    (data : List Nat) (hne : data ≠ []) (hlt : data.length < 8) :
    parseRTCP sourceID hist rseq data = (Status.malformed, [], rseq) := by
  rw [parseRTCP.eq_def,
    if_neg (fun h => hne (List.length_eq_zero.mp h)), if_pos hlt]

theorem parseTSFB_unsupported (sid : Nat) (hist : List HistPkt)
    (data : List Nat) (size rseq : Nat)
    (h1 : data.getD 0 0 &&& 0x1f ≠ 1) :
    parseTSFB sid hist data size rseq = (Status.unsupported, [], rseq) := by
  simp only [parseTSFB, if_pos h1]

theorem parseTSFB_bad_source (sid : Nat) (hist : List HistPkt)
    (data : List Nat) (size rseq : Nat)
    (h1 : ¬data.getD 0 0 &&& 0x1f ≠ 1) (h2 : U32At data 8 ≠ sid) :
    parseTSFB sid hist data size rseq = (Status.malformed, [], rseq) := by
  simp only [parseTSFB, if_neg h1, if_pos h2]

theorem parseTSFB_ok_status (sid : Nat) (hist : List HistPkt)
    (data : List Nat) (size rseq : Nat)
    (h1 : ¬data.getD 0 0 &&& 0x1f ≠ 1) (h2 : ¬U32At data 8 ≠ sid) :
    (parseTSFB sid hist data size rseq).1 = Status.ok := by
  simp only [parseTSFB, if_neg h1, if_neg h2]

theorem parseTSFB_error_cases (sid : Nat) (hist : List HistPkt)
    (data : List Nat) (size rseq : Nat)
    (h : (parseTSFB sid hist data size rseq).1 ≠ Status.ok) :
    parseTSFB sid hist data size rseq = (Status.unsupported, [], rseq)
      ∨ parseTSFB sid hist data size rseq = (Status.malformed, [], rseq) := by
  by_cases h1 : data.getD 0 0 &&& 0x1f ≠ 1
  · exact Or.inl (parseTSFB_unsupported sid hist data size rseq h1)
  · by_cases h2 : U32At data 8 ≠ sid
    · exact Or.inr (parseTSFB_bad_source sid hist data size rseq h1 h2)
    · exact absurd (parseTSFB_ok_status sid hist data size rseq h1 h2) h

theorem parseRTCP_version_abort (sourceID : Nat) (hist : List HistPkt)
    (rseq : Nat) (data : List Nat) (h8 : 8 ≤ data.length)
    (hv : data.getD 0 0 >>> 6 ≠ 2) :
    parseRTCP sourceID hist rseq data = (Status.unsupported, [], rseq) := by
  rw [parseRTCP.eq_def, if_neg (by omega), if_neg (by omega), if_pos hv]

theorem parseRTCP_step_tsfb_error (sourceID : Nat) (hist : List HistPkt)
    (rseq : Nat) (data : List Nat)
    (h8 : 8 ≤ data.length)
    (hv : data.getD 0 0 >>> 6 = 2)
    (hp : data.getD 0 0 &&& 0x20 = 0)
    (ht : data.getD 1 0 = 205)
    (hhl : 4 * (data.getD 2 0 <<< 8 ||| data.getD 3 0) + 4 ≤ data.length)
    (herr : (parseTSFB sourceID hist data
      (4 * (data.getD 2 0 <<< 8 ||| data.getD 3 0) + 4) rseq).1 ≠ Status.ok) :
    parseRTCP sourceID hist rseq data
      = parseRTCP sourceID hist rseq
          (data.drop (4 * (data.getD 2 0 <<< 8 ||| data.getD 3 0) + 4)) := by
  have hlen0 : ¬data.length = 0 := by omega
  have hlen8 : ¬data.length < 8 := by omega
  have hv2 : ¬data.getD 0 0 >>> 6 ≠ 2 := fun hc => hc hv
  have hp2 : ¬data.getD 0 0 &&& 0x20 ≠ 0 := fun hc => hc hp
  have hl2 : ¬data.length < 4 * (data.getD 2 0 <<< 8 ||| data.getD 3 0) + 4 := by
    omega
  rcases parseTSFB_error_cases sourceID hist data
      (4 * (data.getD 2 0 <<< 8 ||| data.getD 3 0) + 4) rseq herr with hst | hst <;>
    (rw [parseRTCP.eq_def]
     simp only [if_neg hlen0, if_neg hlen8, if_neg hv2, if_neg hp2, if_neg hl2,
       if_pos ht, hst, List.take_length]
     simp)

/-! Claim theorems. -/

/-- C1: for every call to appendTSData with a 188-byte TS packet whose append
fits, a flush occurs exactly when the flush argument is true or the
accumulation buffer reached its capacity after the append; the buffer length
is always 12 bytes plus a whole multiple of 188, never exceeds the capacity
of 12 plus the greatest whole number of 188-byte packets fitting under the
1500-byte maximum RTP packet size, and is reset to exactly 12 bytes after
each flush. -/
theorem C1_flush_iff_and_queue_invariant
    (cfg : Config) (nowUs ntpNowUs : Nat) (s : SenderState)
    (data : List Nat) (disc fl : Bool)
    (hdata : data.length = 188)
    (hinv : ∃ m, s.tsQueue.length = 12 + 188 * m)
    (hfit : s.tsQueue.length + 188 ≤ tsQueueCapacity)
    (hhist : ∀ e ∈ s.history, 12 ≤ e.bytes.length) :
    ∃ s1 ev, appendTSData cfg nowUs ntpNowUs s data disc fl = some (s1, ev) ∧
      (ev.isSome = true ↔ (fl = true ∨ s.tsQueue.length + 188 = tsQueueCapacity)) ∧
      (∃ m, s1.tsQueue.length = 12 + 188 * m) ∧
      s1.tsQueue.length ≤ tsQueueCapacity ∧
      (ev.isSome = true → s1.tsQueue.length = 12) ∧
      (ev = none → s1.tsQueue.length = s.tsQueue.length + 188) ∧
      tsQueueCapacity = 12 + kMaxNumTSPacketsPerRTPPacket * 188 ∧
      12 + kMaxNumTSPacketsPerRTPPacket * 188 ≤ kMaxRTPPacketSize ∧
      kMaxRTPPacketSize < 12 + (kMaxNumTSPacketsPerRTPPacket + 1) * 188 := by
  obtain ⟨m, hm⟩ := hinv
  have hcap : tsQueueCapacity = 1328 := by decide
  by_cases hfl : fl = true ∨ s.tsQueue.length + 188 = tsQueueCapacity
  · have happ := appendTSData_eq_flush cfg nowUs ntpNowUs s data disc fl hdata hfit hfl
    have hlen := flushTSQueue_tsQueue_length cfg nowUs ntpNowUs s
      (s.tsQueue ++ data) disc hhist
    refine ⟨_, _, happ, ?_, ?_, ?_, ?_, ?_, ?_, ?_, ?_⟩
    · exact ⟨fun _ => hfl, fun _ => rfl⟩
    · exact ⟨0, by rw [hlen]⟩
    · rw [hlen, hcap]; omega
    · exact fun _ => hlen
    · intro h; simp at h
    · rfl
    · decide
    · decide
  · have happ := appendTSData_eq_append cfg nowUs ntpNowUs s data disc fl hdata hfit hfl
    refine ⟨_, _, happ, ?_, ?_, ?_, ?_, ?_, ?_, ?_, ?_⟩
    · simp [hfl]
    · exact ⟨m + 1, by simp only [List.length_append, hdata, hm]; ring⟩
    · simp only [List.length_append, hdata]
      exact hfit
    · intro h; simp at h
    · intro _
      simp only [List.length_append, hdata]
    · rfl
    · decide
    · decide

/-- Witness for C1 at a concrete configuration, state and packet. -/
theorem C1_flush_iff_and_queue_invariant_witness :
    ∃ s1 ev, appendTSData ⟨1, false, 0, true, 2⟩ 1000 1001
        ⟨List.replicate 12 0, 0, 0, 0, 0, 0, [], 0⟩
        (List.replicate 188 7) true true = some (s1, ev) ∧
      (ev.isSome = true ↔
        (true = true ∨ (List.replicate 12 (0 : Nat)).length + 188 = tsQueueCapacity)) ∧
      (∃ m, s1.tsQueue.length = 12 + 188 * m) ∧
      s1.tsQueue.length ≤ tsQueueCapacity ∧
      (ev.isSome = true → s1.tsQueue.length = 12) ∧
      (ev = none → s1.tsQueue.length = (List.replicate 12 (0 : Nat)).length + 188) ∧
      tsQueueCapacity = 12 + kMaxNumTSPacketsPerRTPPacket * 188 ∧
      12 + kMaxNumTSPacketsPerRTPPacket * 188 ≤ kMaxRTPPacketSize ∧
      kMaxRTPPacketSize < 12 + (kMaxNumTSPacketsPerRTPPacket + 1) * 188 :=
  C1_flush_iff_and_queue_invariant ⟨1, false, 0, true, 2⟩ 1000 1001
    ⟨List.replicate 12 0, 0, 0, 0, 0, 0, [], 0⟩ (List.replicate 188 7) true true
    rfl ⟨0, rfl⟩ (by decide) (by simp)

/-- C2: every flush stamps a 12-byte RTP header whose first byte is 0x80,
whose second byte carries payload type 33 with the marker bit set exactly
when timeDiscontinuity is set, whose bytes 2 and 3 carry the current 16-bit
sequence number big-endian, whose bytes 4 through 7 carry the 32-bit
90 kHz timestamp big-endian, and whose bytes 8 through 11 carry the fixed
32-bit source identifier big-endian; the flush increments the sequence
number, increments the packet count, and adds the payload size (buffer
size minus 12) to the octet count, and the packet goes out as a
binary-data notification in interleaved mode and as a datagram otherwise. -/
theorem C2_flush_rtp_header_and_counters
    (cfg : Config) (nowUs ntpNowUs : Nat) (s : SenderState)
    (data : List Nat) (disc fl : Bool)
    (hdata : data.length = 188)
    (hfit : s.tsQueue.length + 188 ≤ tsQueueCapacity)
    (hfl : fl = true ∨ s.tsQueue.length + 188 = tsQueueCapacity)
    (hseq : s.rtpSeqNo < 65536)
    (hsrc : cfg.sourceID < 2 ^ 32) :
    ∃ s1 ev, appendTSData cfg nowUs ntpNowUs s data disc fl
        = some (s1, some ev) ∧
      ev.payload.getD 0 0 = 0x80 ∧
      ev.payload.getD 1 0 &&& 0x7f = 33 ∧
      ev.payload.getD 1 0 &&& 0x80 = (if disc then 0x80 else 0) ∧
      U16At ev.payload 2 = s.rtpSeqNo ∧
      U32At ev.payload 4 = nowUs * 9 / 100 % 2 ^ 32 ∧
      U32At ev.payload 8 = cfg.sourceID ∧
      ev.payload.length = s.tsQueue.length + 188 ∧
      ev = (if cfg.interleaved then SendEvent.binaryData cfg.rtpChannel ev.payload
        else SendEvent.datagram ev.payload) ∧
      s1.rtpSeqNo = (s.rtpSeqNo + 1) % 65536 ∧
      s1.numRTPSent = (s.numRTPSent + 1) % 2 ^ 32 ∧
      s1.numRTPOctetsSent
        = (s.numRTPOctetsSent + (s.tsQueue.length + 188 - 12)) % 2 ^ 32 := by
  have happ := appendTSData_eq_flush cfg nowUs ntpNowUs s data disc fl hdata hfit hfl
  have hpay := flushTSQueue_payload cfg nowUs ntpNowUs s (s.tsQueue ++ data) disc
  have hev := flushTSQueue_event cfg nowUs ntpNowUs s (s.tsQueue ++ data) disc
  have hcnt := flushTSQueue_counters cfg nowUs ntpNowUs s (s.tsQueue ++ data) disc
  have hrtp : nowUs * 9 / 100 % 2 ^ 32 < 2 ^ 32 := Nat.mod_lt _ (by norm_num)
  have hgd : ∀ i, i < 12 →
      (flushTSQueue cfg nowUs ntpNowUs s (s.tsQueue ++ data) disc).2.payload.getD i 0
        = (stampRTPHeader cfg.sourceID s.rtpSeqNo (nowUs * 9 / 100 % 2 ^ 32)
            disc).getD i 0 := by
    intro i hi
    rw [hpay]
    exact List.getD_append _ _ _ _ (by rw [stampRTPHeader_length]; exact hi)
  refine ⟨_, _, happ, ?_, ?_, ?_, ?_, ?_, ?_, ?_, ?_, ?_, ?_, ?_⟩
  · rw [hgd 0 (by norm_num)]
    simp only [stampRTPHeader, List.getD_cons_zero]
  · rw [hgd 1 (by norm_num)]
    simp only [stampRTPHeader, List.getD_cons_zero, List.getD_cons_succ]
    cases disc <;> decide
  · rw [hgd 1 (by norm_num)]
    simp only [stampRTPHeader, List.getD_cons_zero, List.getD_cons_succ]
    cases disc <;> decide
  · rw [U16At, hgd 2 (by norm_num), hgd 3 (by norm_num)]
    simp only [stampRTPHeader, List.getD_cons_zero, List.getD_cons_succ]
    exact be16_decode _ hseq
  · rw [U32At, hgd 4 (by norm_num), hgd 5 (by norm_num), hgd 6 (by norm_num),
      hgd 7 (by norm_num)]
    simp only [stampRTPHeader, List.getD_cons_zero, List.getD_cons_succ]
    exact be32_decode _ hrtp
  · rw [U32At, hgd 8 (by norm_num), hgd 9 (by norm_num), hgd 10 (by norm_num),
      hgd 11 (by norm_num)]
    simp only [stampRTPHeader, List.getD_cons_zero, List.getD_cons_succ]
    exact be32_decode _ hsrc
  · rw [hpay]
    simp only [List.length_append, List.length_drop, stampRTPHeader_length, hdata]
    omega
  · rw [hev]
    by_cases hI : cfg.interleaved <;> simp [hI, SendEvent.payload]
  · exact hcnt.1
  · exact hcnt.2.1
  · have h3 := hcnt.2.2.1
    rw [List.length_append, hdata] at h3
    exact h3

/-- C3: across any run of appendTSData calls, however the TS packets are
grouped into batches (that is, wherever flushes are requested), the 16-bit
sequence numbers carried in consecutively flushed RTP packets increase by
exactly 1 modulo 65536. -/
theorem C3_seq_numbers_increase_by_one
    (cfg : Config) (steps : List AppendStep) (s s2 : SenderState)
    (evs : List SendEvent)
    (hrun : runAppend cfg s steps = some (s2, evs))
    (hs : s.rtpSeqNo < 65536) :
    ∀ j, j + 1 < evs.length →
      rtpSeqOf ((evs.getD (j + 1) (SendEvent.datagram [])).payload)
        = (rtpSeqOf ((evs.getD j (SendEvent.datagram [])).payload) + 1) % 65536 := by
  have hmain := runAppend_seq cfg steps s s2 evs hrun hs
  intro j hj
  rw [hmain.1 (j + 1) hj, hmain.1 j (by omega)]
  omega

/-- Witness for C3 at a concrete two-flush run. -/
theorem C3_seq_numbers_increase_by_one_witness :
    rtpSeqOf (([SendEvent.datagram
          (stampRTPHeader 1 0 (1000 * 9 / 100) true ++ List.replicate 188 7),
        SendEvent.datagram
          (stampRTPHeader 1 1 (1000 * 9 / 100) true
            ++ List.replicate 188 7)].getD (0 + 1)
        (SendEvent.datagram [])).payload)
      = (rtpSeqOf (([SendEvent.datagram
          (stampRTPHeader 1 0 (1000 * 9 / 100) true ++ List.replicate 188 7),
        SendEvent.datagram
          (stampRTPHeader 1 1 (1000 * 9 / 100) true
            ++ List.replicate 188 7)].getD 0
        (SendEvent.datagram [])).payload) + 1) % 65536 :=
  C3_seq_numbers_increase_by_one ⟨1, false, 0, false, 2⟩
    [⟨1000, 1000, List.replicate 188 7, true, true⟩,
      ⟨1000, 1000, List.replicate 188 7, true, true⟩]
    ⟨List.replicate 12 0, 0, 0, 0, 0, 0, [], 0⟩
    ⟨stampRTPHeader 1 1 (1000 * 9 / 100) true, 2, 2, 376, 90, GetNowNTP 1000, [], 0⟩
    [SendEvent.datagram (stampRTPHeader 1 0 (1000 * 9 / 100) true
        ++ List.replicate 188 7),
      SendEvent.datagram (stampRTPHeader 1 1 (1000 * 9 / 100) true
        ++ List.replicate 188 7)]
    (by decide) (by decide) 0 (by decide)

/-- Witness for C2 at a concrete configuration, state and packet. -/
theorem C2_flush_rtp_header_and_counters_witness :
    ∃ s1 ev, appendTSData ⟨0x11223344, false, 0, true, 2⟩ 1000 1001
        ⟨List.replicate 12 0, 65535, 1, 2, 0, 0, [], 0⟩
        (List.replicate 188 7) true true = some (s1, some ev) ∧
      ev.payload.getD 0 0 = 0x80 ∧
      ev.payload.getD 1 0 &&& 0x7f = 33 ∧
      ev.payload.getD 1 0 &&& 0x80 = (if true then 0x80 else 0) ∧
      U16At ev.payload 2 = 65535 ∧
      U32At ev.payload 4 = 1000 * 9 / 100 % 2 ^ 32 ∧
      U32At ev.payload 8 = 0x11223344 ∧
      ev.payload.length = (List.replicate 12 (0 : Nat)).length + 188 ∧
      ev = (if false then SendEvent.binaryData 0 ev.payload
        else SendEvent.datagram ev.payload) ∧
      s1.rtpSeqNo = (65535 + 1) % 65536 ∧
      s1.numRTPSent = (1 + 1) % 2 ^ 32 ∧
      s1.numRTPOctetsSent
        = (2 + ((List.replicate 12 (0 : Nat)).length + 188 - 12)) % 2 ^ 32 :=
  C2_flush_rtp_header_and_counters ⟨0x11223344, false, 0, true, 2⟩ 1000 1001
    ⟨List.replicate 12 0, 65535, 1, 2, 0, 0, [], 0⟩ (List.replicate 188 7)
    true true rfl (by decide) (Or.inl rfl) (by decide) (by decide)


/-- C4 (amended): parseRTCP returns a malformed-error result exactly when
the walk meets a non-empty remainder shorter than 8 bytes, a sub-packet
whose set padding flag claims a padding length that together with the
12-byte minimum header exceeds the remaining size, or a sub-packet whose
declared length exceeds the remaining buffer; a buffer that is non-empty
yet shorter than 8 bytes yields the malformed result with no side effects
(no retransmission packets, counter unchanged); and the walk returns OK
exactly when every sub-packet is consumed until the buffer is exhausted. -/
theorem C4_parse_rtcp_malformed_characterization :
    (∀ (sourceID : Nat) (hist : List HistPkt) (rseq : Nat) (data : List Nat),
      ((parseRTCP sourceID hist rseq data).1 = Status.malformed
        ↔ rtcpMalformedActual data = true)) ∧
    (∀ (sourceID : Nat) (hist : List HistPkt) (rseq : Nat) (data : List Nat),
      data ≠ [] → data.length < 8 →
        parseRTCP sourceID hist rseq data = (Status.malformed, [], rseq)) ∧
    (∀ (sourceID : Nat) (hist : List HistPkt) (rseq : Nat) (data : List Nat),
      ((parseRTCP sourceID hist rseq data).1 = Status.ok
        ↔ rtcpConsumesAll data = true)) :=
  ⟨fun sourceID hist rseq data =>
      parseRTCP_status_malformed sourceID hist data.length data le_rfl rseq,
    parseRTCP_truncated,
    fun sourceID hist rseq data =>
      parseRTCP_status_ok sourceID hist data.length data le_rfl rseq⟩

/-- Witness for C4 at concrete buffers: a buffer failing the padding check,
a truncated buffer, and a well-formed single sub-packet. -/
theorem C4_parse_rtcp_malformed_characterization_witness :
    ((parseRTCP 7 [] 3 [0xA0, 200, 0, 1, 0, 0, 0, 0, 0, 0, 0, 0, 0, 0, 0, 8]).1
        = Status.malformed
      ↔ rtcpMalformedActual
          [0xA0, 200, 0, 1, 0, 0, 0, 0, 0, 0, 0, 0, 0, 0, 0, 8] = true) ∧
    parseRTCP 7 [] 3 [1, 2, 3] = (Status.malformed, [], 3) ∧
    ((parseRTCP 7 [] 3 [0x80, 200, 0, 1, 0, 0, 0, 0]).1 = Status.ok
      ↔ rtcpConsumesAll [0x80, 200, 0, 1, 0, 0, 0, 0] = true) :=
  ⟨C4_parse_rtcp_malformed_characterization.1 7 [] 3 _,
    C4_parse_rtcp_malformed_characterization.2.1 7 [] 3 [1, 2, 3]
      (by simp) (by simp),
    C4_parse_rtcp_malformed_characterization.2.2 7 [] 3 _⟩

/-- Counterexample to C4 as stated: on this buffer the code returns a
malformed result although the claimed padding length (8) does not exceed
the packet size (16), so none of the conditions enumerated by the claim
holds and the claim predicts a successful walk. -/
theorem C4_counterexample :
    (parseRTCP 7 [] 3 [0xA0, 200, 0, 1, 0, 0, 0, 0, 0, 0, 0, 0, 0, 0, 0, 8]).1
        = Status.malformed
      ∧ rtcpMalformedClaimed [0xA0, 200, 0, 1, 0, 0, 0, 0, 0, 0, 0, 0, 0, 0, 0, 8]
        = false := by
  constructor
  · simp [parseRTCP]
  · simp [rtcpMalformedClaimed]

/-- C5 (amended): a transport-feedback sub-packet whose NACK format subtype
is not 1 is ignored and the walk continues with the remaining sub-packets
unchanged, but a sub-packet whose RTCP version field differs from 2 makes
parseRTCP return the unsupported-error immediately, abandoning the
remaining sub-packets instead of continuing. -/
theorem C5_unsupported_version_and_nack_subtype :
    (∀ (sourceID : Nat) (hist : List HistPkt) (rseq : Nat) (data : List Nat),
      8 ≤ data.length → data.getD 0 0 >>> 6 ≠ 2 →
        parseRTCP sourceID hist rseq data = (Status.unsupported, [], rseq)) ∧
    (∀ (sourceID : Nat) (hist : List HistPkt) (rseq : Nat) (data : List Nat),
      8 ≤ data.length → data.getD 0 0 >>> 6 = 2 →
      data.getD 0 0 &&& 0x20 = 0 → data.getD 1 0 = 205 →
      data.getD 0 0 &&& 0x1f ≠ 1 →
      4 * (data.getD 2 0 <<< 8 ||| data.getD 3 0) + 4 ≤ data.length →
        parseRTCP sourceID hist rseq data
          = parseRTCP sourceID hist rseq
              (data.drop (4 * (data.getD 2 0 <<< 8 ||| data.getD 3 0) + 4))) := by
  constructor
  · exact parseRTCP_version_abort
  · intro sourceID hist rseq data h8 hv hp ht hsub hhl
    have herr : (parseTSFB sourceID hist data
        (4 * (data.getD 2 0 <<< 8 ||| data.getD 3 0) + 4) rseq).1
        ≠ Status.ok := by
      rw [parseTSFB_unsupported sourceID hist data _ rseq hsub]
      simp
    exact parseRTCP_step_tsfb_error sourceID hist rseq data h8 hv hp ht hhl herr

/-- Witness for C5 at concrete buffers: a version-1 sub-packet and a
transport-feedback sub-packet with format subtype 5. -/
theorem C5_unsupported_version_and_nack_subtype_witness :
    parseRTCP 5 [] 2 [0x40, 200, 0, 1, 0, 0, 0, 0] = (Status.unsupported, [], 2) ∧
    parseRTCP 5 [] 2 [0x85, 205, 0, 1, 0, 0, 0, 0, 9, 9]
      = parseRTCP 5 [] 2 ([0x85, 205, 0, 1, 0, 0, 0, 0, 9, 9].drop
          (4 * ([0x85, 205, 0, 1, 0, 0, 0, 0, 9, 9].getD 2 0 <<< 8
            ||| [0x85, 205, 0, 1, 0, 0, 0, 0, 9, 9].getD 3 0) + 4)) :=
  ⟨C5_unsupported_version_and_nack_subtype.1 5 [] 2 _ (by decide) (by decide),
    C5_unsupported_version_and_nack_subtype.2 5 [] 2 _ (by decide) (by decide)
      (by decide) (by decide) (by decide) (by decide)⟩

/-- Counterexample to C5 as stated: a compound buffer whose first sub-packet
has version 1 followed by a valid NACK for sequence number 10, which is in
the history.  The code returns the unsupported status without sending any
retransmission, while processing the second sub-packet alone does send one:
the walk did not continue past the unsupported-version sub-packet. -/
theorem C5_counterexample :
    (parseRTCP 0x11223344 [⟨10, List.range 16⟩] 0
        [0x40, 200, 0, 1, 0, 0, 0, 0,
         0x81, 205, 0, 3, 0, 0, 0, 0, 0x11, 0x22, 0x33, 0x44, 0, 10, 0, 0])
      = (Status.unsupported, [], 0) ∧
    (parseRTCP 0x11223344 [⟨10, List.range 16⟩] 0
        [0x81, 205, 0, 3, 0, 0, 0, 0, 0x11, 0x22, 0x33, 0x44, 0, 10, 0, 0]).2.1
      ≠ [] := by
  constructor
  · simp [parseRTCP]
  · simp +decide [parseRTCP, parseTSFB]

/-- C10: when a transport-feedback (type 205) sub-packet is rejected by the
NACK handler (unsupported format subtype or mismatched source identifier),
the rejection is discarded: no retransmission packet is emitted for it, the
retransmission counter is unchanged, and parseRTCP processes the remaining
sub-packets with its own result unaffected by the error of the handler. -/
theorem C10_tsfb_rejection_discarded
    (sourceID : Nat) (hist : List HistPkt) (rseq : Nat) (data : List Nat)
    (h8 : 8 ≤ data.length)
    (hv : data.getD 0 0 >>> 6 = 2)
    (hp : data.getD 0 0 &&& 0x20 = 0)
    (ht : data.getD 1 0 = 205)
    (hhl : 4 * (data.getD 2 0 <<< 8 ||| data.getD 3 0) + 4 ≤ data.length)
    (herr : (parseTSFB sourceID hist data
      (4 * (data.getD 2 0 <<< 8 ||| data.getD 3 0) + 4) rseq).1 ≠ Status.ok) :
    (parseTSFB sourceID hist data
        (4 * (data.getD 2 0 <<< 8 ||| data.getD 3 0) + 4) rseq).2.1 = [] ∧
    (parseTSFB sourceID hist data
        (4 * (data.getD 2 0 <<< 8 ||| data.getD 3 0) + 4) rseq).2.2 = rseq ∧
    parseRTCP sourceID hist rseq data
      = parseRTCP sourceID hist rseq
          (data.drop (4 * (data.getD 2 0 <<< 8 ||| data.getD 3 0) + 4)) := by
  rcases parseTSFB_error_cases sourceID hist data
      (4 * (data.getD 2 0 <<< 8 ||| data.getD 3 0) + 4) rseq herr with hst | hst <;>
    exact ⟨by rw [hst], by rw [hst],
      parseRTCP_step_tsfb_error sourceID hist rseq data h8 hv hp ht hhl herr⟩

/-- Witness for C10: a well-formed transport-feedback sub-packet whose
embedded source identifier does not match the sender. -/
theorem C10_tsfb_rejection_discarded_witness :
    (parseTSFB 0x11223344 [⟨10, List.range 16⟩]
        [0x81, 205, 0, 3, 0, 0, 0, 0, 0xDE, 0xAD, 0xBE, 0xEF, 0, 10, 0, 0]
        (4 * ([0x81, 205, 0, 3, 0, 0, 0, 0, 0xDE, 0xAD, 0xBE, 0xEF,
          0, 10, 0, 0].getD 2 0 <<< 8
          ||| [0x81, 205, 0, 3, 0, 0, 0, 0, 0xDE, 0xAD, 0xBE, 0xEF,
            0, 10, 0, 0].getD 3 0) + 4) 6).2.1 = [] ∧
    (parseTSFB 0x11223344 [⟨10, List.range 16⟩]
        [0x81, 205, 0, 3, 0, 0, 0, 0, 0xDE, 0xAD, 0xBE, 0xEF, 0, 10, 0, 0]
        (4 * ([0x81, 205, 0, 3, 0, 0, 0, 0, 0xDE, 0xAD, 0xBE, 0xEF,
          0, 10, 0, 0].getD 2 0 <<< 8
          ||| [0x81, 205, 0, 3, 0, 0, 0, 0, 0xDE, 0xAD, 0xBE, 0xEF,
            0, 10, 0, 0].getD 3 0) + 4) 6).2.2 = 6 ∧
    parseRTCP 0x11223344 [⟨10, List.range 16⟩] 6
        [0x81, 205, 0, 3, 0, 0, 0, 0, 0xDE, 0xAD, 0xBE, 0xEF, 0, 10, 0, 0]
      = parseRTCP 0x11223344 [⟨10, List.range 16⟩] 6
          ([0x81, 205, 0, 3, 0, 0, 0, 0, 0xDE, 0xAD, 0xBE, 0xEF,
            0, 10, 0, 0].drop
            (4 * ([0x81, 205, 0, 3, 0, 0, 0, 0, 0xDE, 0xAD, 0xBE, 0xEF,
              0, 10, 0, 0].getD 2 0 <<< 8
              ||| [0x81, 205, 0, 3, 0, 0, 0, 0, 0xDE, 0xAD, 0xBE, 0xEF,
                0, 10, 0, 0].getD 3 0) + 4)) :=
  C10_tsfb_rejection_discarded 0x11223344 [⟨10, List.range 16⟩] 6
    [0x81, 205, 0, 3, 0, 0, 0, 0, 0xDE, 0xAD, 0xBE, 0xEF, 0, 10, 0, 0]
    (by decide) (by decide) (by decide) (by decide) (by decide) (by decide)


theorem queuePackets_anchored (t0 n0 t n : Int) (h : 0 ≤ t0) :
    queuePackets ⟨t0, n0⟩ t n = (⟨t0, n0⟩, max 0 (t - t0 + n0 - n)) := by
  rw [queuePackets, if_neg (Int.not_lt.mpr h)]
  simp only [Prod.mk.injEq]
  refine ⟨trivial, ?_⟩
  split_ifs <;> omega

theorem runQueue_anchored (t0 n0 : Int) (h : 0 ≤ t0) :
    ∀ calls : List (Int × Int),
      (runQueue ⟨t0, n0⟩ calls).1 = ⟨t0, n0⟩ ∧
      ∀ j, j < calls.length →
        (runQueue ⟨t0, n0⟩ calls).2.getD j 0
          = max 0 ((calls.getD j (0, 0)).1 - t0 + n0 - (calls.getD j (0, 0)).2) := by
  intro calls
  induction calls with
  | nil =>
    refine ⟨rfl, ?_⟩
    intro j hj
    exact absurd hj (by simp)
  | cons c rest ih =>
    obtain ⟨t, n⟩ := c
    constructor
    · rw [runQueue]
      simp only [queuePackets_anchored t0 n0 t n h]
      exact ih.1
    · intro j hj
      rw [runQueue]
      simp only [queuePackets_anchored t0 n0 t n h]
      cases j with
      | zero => simp
      | succ j2 =>
        have hj2 : j2 < rest.length := by simpa using hj
        simpa using ih.2 j2 hj2

/-- C8 (amended): the first call to queuePackets anchors the pacing clock to
its timestamp and wall time and posts a zero delay; provided that first
timestamp is nonnegative (the anchor-unset sentinel is -1), every later call
with timestamp timeUs at wall time nowUs posts a delay of
max(0, (timeUs - firstPresentationTimeUs) + firstSendWallClockUs - nowUs)
and leaves the anchors unchanged, returning the delay for a deferred,
non-blocking dispatch. -/
theorem C8_pacing_anchored_schedule (t0 n0 : Int) (calls : List (Int × Int))
    (h : 0 ≤ t0) :
    (runQueue initPacing ((t0, n0) :: calls)).2.getD 0 0 = 0 ∧
    (runQueue initPacing ((t0, n0) :: calls)).1 = ⟨t0, n0⟩ ∧
    ∀ j, j < calls.length →
      (runQueue initPacing ((t0, n0) :: calls)).2.getD (j + 1) 0
        = max 0 ((calls.getD j (0, 0)).1 - t0 + n0 - (calls.getD j (0, 0)).2) := by
  have hfirst : queuePackets initPacing t0 n0 = (⟨t0, n0⟩, 0) := by
    rw [queuePackets, if_pos (by simp [initPacing])]
  refine ⟨?_, ?_, ?_⟩
  · rw [runQueue]
    simp only [hfirst]
    simp
  · rw [runQueue]
    simp only [hfirst]
    exact (runQueue_anchored t0 n0 h calls).1
  · intro j hj
    rw [runQueue]
    simp only [hfirst]
    simpa using (runQueue_anchored t0 n0 h calls).2 j hj

/-- Witness for C8 at a concrete two-call trace. -/
theorem C8_pacing_anchored_schedule_witness :
    (runQueue initPacing [((3 : Int), (100 : Int)), (10, 105)]).2.getD 0 0 = 0 ∧
    (runQueue initPacing [((3 : Int), (100 : Int)), (10, 105)]).1 = ⟨3, 100⟩ ∧
    ∀ j, j < [((10 : Int), (105 : Int))].length →
      (runQueue initPacing [((3 : Int), (100 : Int)), (10, 105)]).2.getD (j + 1) 0
        = max 0 (([((10 : Int), (105 : Int))].getD j (0, 0)).1 - 3 + 100
            - ([((10 : Int), (105 : Int))].getD j (0, 0)).2) :=
  C8_pacing_anchored_schedule 3 100 [(10, 105)] (by decide)

/-- Counterexample to C8 as stated: a first call with a negative timestamp
leaves the first-ready anchor negative, so the second call re-anchors; the
third call is then paced against the second call, not the first.  The code
posts a delay of 5 while the claim formula, anchored at the first call,
yields 0. -/
theorem C8_counterexample :
    (runQueue initPacing [(-5, 100), (10, 200), (20, 205)]).2.getD 2 0 = 5 ∧
    max 0 ((20 - (-5 : Int)) + 100 - 205) = 0 := by decide

theorem initScan_always_fail (c : InitConfig) (bindOK : Nat → Bool)
    (hfail : ∀ p, bindOK p = false) :
    ∀ fuel start : Nat, initScan c bindOK fuel start = none := by
  intro fuel
  induction fuel with
  | zero => intro start; rfl
  | succ n ih =>
    intro start
    have hcand : candidateSucceeds c bindOK start = false := by
      simp [candidateSucceeds, hfail]
    rw [initScan, if_neg (by simp [hcand])]
    exact ih (start + 2)

theorem initScan_some_succeeds (c : InitConfig) (bindOK : Nat → Bool) :
    ∀ (fuel start p : Nat), initScan c bindOK fuel start = some p →
      candidateSucceeds c bindOK p = true ∧ start ≤ p := by
  intro fuel
  induction fuel with
  | zero => intro start p h; exact absurd h (by simp [initScan])
  | succ n ih =>
    intro start p h
    rw [initScan] at h
    by_cases hc : candidateSucceeds c bindOK start = true
    · rw [if_pos hc] at h
      simp only [Option.some.injEq] at h
      subst h
      exact ⟨hc, le_rfl⟩
    · rw [if_neg hc] at h
      have := ih (start + 2) p h
      exact ⟨this.1, by omega⟩

/-- C9: the Sender::init port scan for UDP and TCP-datagram transports never
terminates when no candidate can ever be bound: for every iteration bound
the loop is still running and init has returned nothing, so the
unknown-error return after the loop is unreachable; indeed the loop can
only exit with a successfully bound candidate port at or above the base
port 15550. -/
theorem C9_port_scan_never_returns_on_total_bind_failure :
    (∀ (c : InitConfig) (bindOK : Nat → Bool),
      (∀ p, bindOK p = false) →
      ∀ fuel, initScan c bindOK fuel initScanBase = none) ∧
    (∀ (c : InitConfig) (bindOK : Nat → Bool) (fuel start p : Nat),
      initScan c bindOK fuel start = some p →
        candidateSucceeds c bindOK p = true ∧ start ≤ p) :=
  ⟨fun c bindOK hfail fuel => initScan_always_fail c bindOK hfail fuel initScanBase,
    initScan_some_succeeds⟩

/-- Witness for C9: with every bind failing the scan yields nothing after 5
iterations; with binding failing only at the base port the scan exits at the
next candidate 15552, which satisfies the success condition. -/
theorem C9_port_scan_never_returns_on_total_bind_failure_witness :
    initScan ⟨true, true, true, 111⟩ (fun _ => false) 5 initScanBase = none ∧
    (candidateSucceeds ⟨true, true, true, 111⟩ (fun p => p != 15550) 15552 = true
      ∧ 15550 ≤ 15552) :=
  ⟨C9_port_scan_never_returns_on_total_bind_failure.1 ⟨true, true, true, 111⟩
      (fun _ => false) (fun _ => rfl) 5,
    C9_port_scan_never_returns_on_total_bind_failure.2 ⟨true, true, true, 111⟩
      (fun p => p != 15550) 2 15550 15552 (by decide)⟩


theorem processNACKEntry_not_found (seqNo : Nat) :
    ∀ (hist : List HistPkt) (rseq : Nat),
      seqNo ∉ hist.map HistPkt.seq →
      processNACKEntry seqNo hist 0 rseq false = ([], rseq) := by
  intro hist
  induction hist with
  | nil => intro rseq _; rfl
  | cons e rest ih =>
    intro rseq hmem
    simp only [List.map_cons, List.mem_cons, not_or] at hmem
    obtain ⟨hne, hrest⟩ := hmem
    rw [processNACKEntry, if_neg (fun hc => hne hc.symm), if_neg (by simp)]
    exact ih rseq hrest

/-- C7: after every flush with retransmission enabled and the history within
its bound, the history length stays at most the configured maximum; when the
history already held the maximum number of packets, exactly the oldest entry
is evicted and its buffer (reset to 12 bytes) becomes the next accumulation
buffer, otherwise the new packet is appended and a fresh 12-byte buffer is
used; and a NACK entry whose base sequence number is absent from the history
matches nothing and completes without failure, sending no packets. -/
theorem C7_history_bound_eviction_recycling :
    (∀ (cfg : Config) (nowUs ntpNowUs : Nat) (s : SenderState) (q : List Nat)
      (disc : Bool),
      cfg.retransEnabled = true →
      s.history.length ≤ cfg.maxHistoryLength →
      (flushTSQueue cfg nowUs ntpNowUs s q disc).1.history.length
          ≤ cfg.maxHistoryLength ∧
      (s.history.length = cfg.maxHistoryLength →
        (flushTSQueue cfg nowUs ntpNowUs s q disc).1.history
            = (s.history ++ [HistPkt.mk s.rtpSeqNo
                (stampRTPHeader cfg.sourceID s.rtpSeqNo (nowUs * 9 / 100 % 2 ^ 32)
                  disc ++ q.drop 12)]).tail ∧
        (flushTSQueue cfg nowUs ntpNowUs s q disc).1.tsQueue
            = ((s.history ++ [HistPkt.mk s.rtpSeqNo
                (stampRTPHeader cfg.sourceID s.rtpSeqNo (nowUs * 9 / 100 % 2 ^ 32)
                  disc ++ q.drop 12)]).headI.bytes.take 12)) ∧
      (s.history.length < cfg.maxHistoryLength →
        (flushTSQueue cfg nowUs ntpNowUs s q disc).1.history
            = s.history ++ [HistPkt.mk s.rtpSeqNo
                (stampRTPHeader cfg.sourceID s.rtpSeqNo (nowUs * 9 / 100 % 2 ^ 32)
                  disc ++ q.drop 12)] ∧
        (flushTSQueue cfg nowUs ntpNowUs s q disc).1.tsQueue
            = List.replicate 12 0)) ∧
    (∀ (hist : List HistPkt) (seqNo rseq : Nat),
      seqNo ∉ hist.map HistPkt.seq →
      processNACKEntry seqNo hist 0 rseq false = ([], rseq)) := by
  constructor
  · intro cfg nowUs ntpNowUs s q disc hre hbound
    by_cases heq : s.history.length = cfg.maxHistoryLength
    · have hev : cfg.maxHistoryLength
          < (s.history ++ [(⟨s.rtpSeqNo,
            stampRTPHeader cfg.sourceID s.rtpSeqNo (nowUs * 9 / 100 % 2 ^ 32)
              disc ++ q.drop 12⟩ : HistPkt)]).length := by
        simp only [List.length_append, List.length_singleton]
        omega
      refine ⟨?_, fun _ => ?_, fun hlt => absurd heq (by omega)⟩
      · simp only [flushTSQueue, if_pos hre, if_pos hev]
        simp only [List.length_tail, List.length_append, List.length_singleton]
        omega
      · constructor
        · simp only [flushTSQueue, if_pos hre, if_pos hev]
        · simp only [flushTSQueue, if_pos hre, if_pos hev]
    · have hlt : s.history.length < cfg.maxHistoryLength := by omega
      have hnev : ¬cfg.maxHistoryLength
          < (s.history ++ [(⟨s.rtpSeqNo,
            stampRTPHeader cfg.sourceID s.rtpSeqNo (nowUs * 9 / 100 % 2 ^ 32)
              disc ++ q.drop 12⟩ : HistPkt)]).length := by
        simp only [List.length_append, List.length_singleton]
        omega
      refine ⟨?_, fun habs => absurd habs heq, fun _ => ?_⟩
      · simp only [flushTSQueue, if_pos hre, if_neg hnev]
        simp only [List.length_append, List.length_singleton]
        omega
      · constructor
        · simp only [flushTSQueue, if_pos hre, if_neg hnev]
        · simp only [flushTSQueue, if_pos hre, if_neg hnev]
  · exact fun hist seqNo rseq => processNACKEntry_not_found seqNo hist rseq

/-- Witness for C7 at a concrete full history and a NACK for an absent
sequence number. -/
theorem C7_history_bound_eviction_recycling_witness :
    ((flushTSQueue ⟨1, false, 0, true, 1⟩ 1000 1000
        ⟨List.replicate 12 0, 3, 0, 0, 0, 0, [⟨2, List.replicate 200 9⟩], 0⟩
        (List.replicate 200 0) true).1.history.length ≤ 1 ∧
      ((1 : Nat) = 1 →
        (flushTSQueue ⟨1, false, 0, true, 1⟩ 1000 1000
            ⟨List.replicate 12 0, 3, 0, 0, 0, 0, [⟨2, List.replicate 200 9⟩], 0⟩
            (List.replicate 200 0) true).1.history
          = ([HistPkt.mk 2 (List.replicate 200 9)] ++ [HistPkt.mk 3
              (stampRTPHeader 1 3 (1000 * 9 / 100 % 2 ^ 32) true
                ++ (List.replicate 200 (0 : Nat)).drop 12)]).tail ∧
        (flushTSQueue ⟨1, false, 0, true, 1⟩ 1000 1000
            ⟨List.replicate 12 0, 3, 0, 0, 0, 0, [⟨2, List.replicate 200 9⟩], 0⟩
            (List.replicate 200 0) true).1.tsQueue
          = (([HistPkt.mk 2 (List.replicate 200 9)] ++ [HistPkt.mk 3
              (stampRTPHeader 1 3 (1000 * 9 / 100 % 2 ^ 32) true
                ++ (List.replicate 200 (0 : Nat)).drop 12)]).headI.bytes.take 12)) ∧
      ((1 : Nat) < 1 →
        (flushTSQueue ⟨1, false, 0, true, 1⟩ 1000 1000
            ⟨List.replicate 12 0, 3, 0, 0, 0, 0, [⟨2, List.replicate 200 9⟩], 0⟩
            (List.replicate 200 0) true).1.history
          = [HistPkt.mk 2 (List.replicate 200 9)] ++ [HistPkt.mk 3
              (stampRTPHeader 1 3 (1000 * 9 / 100 % 2 ^ 32) true
                ++ (List.replicate 200 (0 : Nat)).drop 12)] ∧
        (flushTSQueue ⟨1, false, 0, true, 1⟩ 1000 1000
            ⟨List.replicate 12 0, 3, 0, 0, 0, 0, [⟨2, List.replicate 200 9⟩], 0⟩
            (List.replicate 200 0) true).1.tsQueue
          = List.replicate 12 0)) ∧
    processNACKEntry 2 [⟨5, List.range 16⟩] 0 7 false = ([], 7) :=
  ⟨C7_history_bound_eviction_recycling.1 ⟨1, false, 0, true, 1⟩ 1000 1000
      ⟨List.replicate 12 0, 3, 0, 0, 0, 0, [⟨2, List.replicate 200 9⟩], 0⟩
      (List.replicate 200 0) true rfl (by decide),
    C7_history_bound_eviction_recycling.2 [⟨5, List.range 16⟩] 2 7 (by decide)⟩

theorem and_one_shift_ne (x n : Nat) :
    (x &&& (1 <<< n) ≠ 0) ↔ x.testBit n = true := by
  have h1 : (1 : Nat) <<< n = 2 ^ n := by rw [Nat.shiftLeft_eq, one_mul]
  rw [h1, Nat.and_two_pow]
  cases h : x.testBit n <;> simp [h]

theorem seq_target_inj (seqNo i j : Nat)
    (hi : i < 16) (hj : j < 16)
    (h : (seqNo + i + 1) % 65536 = (seqNo + j + 1) % 65536) : i = j := by
  omega

theorem cleared_testBit (blp j0 j : Nat) (hj0 : j0 < 16) :
    (blp &&& (0xffff ^^^ (1 <<< j0))).testBit j
      = (blp.testBit j && (decide (j < 16) && !decide (j = j0))) := by
  have h1 : (1 : Nat) <<< j0 = 2 ^ j0 := by rw [Nat.shiftLeft_eq, one_mul]
  have h2 : (0xffff : Nat) = 2 ^ 16 - 1 := by norm_num
  rw [Nat.testBit_and, Nat.testBit_xor, h1, h2, Nat.testBit_two_pow_sub_one,
    Nat.testBit_two_pow]
  by_cases hlt : j < 16 <;> by_cases heq : j = j0 <;>
    simp [hlt, heq] <;> omega

theorem nackBitScan_foldl_nomatch (seqNo b blp : Nat) :
    ∀ n : Nat,
      (∀ j, j < n → ¬(blp.testBit j = true ∧ b = (seqNo + j + 1) % 65536)) →
      (List.range n).foldl
        (fun acc i =>
          if acc.1 &&& (1 <<< i) ≠ 0 ∧ b = (seqNo + i + 1) % 65536 then
            (acc.1 &&& (0xffff ^^^ (1 <<< i)), true)
          else acc)
        (blp, false) = (blp, false) := by
  intro n
  induction n with
  | zero => intro _; rfl
  | succ m ih =>
    intro h
    rw [List.range_succ, List.foldl_append, ih (fun j hj hc => h j (by omega) hc)]
    simp only [List.foldl_cons, List.foldl_nil]
    rw [if_neg (fun hc =>
      h m (by omega) ⟨(and_one_shift_ne blp m).mp hc.1, hc.2⟩)]

theorem nackBitScan_foldl_match (seqNo b blp j0 : Nat)
    (hj0 : j0 < 16) (hbit : blp.testBit j0 = true)
    (hb : b = (seqNo + j0 + 1) % 65536) :
    ∀ n : Nat, j0 < n → n ≤ 16 →
      (List.range n).foldl
        (fun acc i =>
          if acc.1 &&& (1 <<< i) ≠ 0 ∧ b = (seqNo + i + 1) % 65536 then
            (acc.1 &&& (0xffff ^^^ (1 <<< i)), true)
          else acc)
        (blp, false) = (blp &&& (0xffff ^^^ (1 <<< j0)), true) := by
  intro n
  induction n with
  | zero => intro hlt _; exact absurd hlt (by omega)
  | succ m ih =>
    intro hlt hle
    rw [List.range_succ, List.foldl_append]
    by_cases hj : j0 = m
    · subst hj
      rw [nackBitScan_foldl_nomatch seqNo b blp j0
        (fun j hjlt hc => absurd
          (seq_target_inj seqNo j j0 (by omega) hj0 (hc.2.symm.trans hb))
          (by omega))]
      simp only [List.foldl_cons, List.foldl_nil]
      rw [if_pos ⟨(and_one_shift_ne blp j0).mpr hbit, hb⟩]
    · have hlt2 : j0 < m := by omega
      rw [ih hlt2 (by omega)]
      simp only [List.foldl_cons, List.foldl_nil]
      rw [if_neg (fun hc => hj
        (seq_target_inj seqNo j0 m hj0 (by omega) (hb.symm.trans hc.2)))]

theorem nackBitScan_match (seqNo b blp j0 : Nat)
    (hj0 : j0 < 16) (hbit : blp.testBit j0 = true)
    (hb : b = (seqNo + j0 + 1) % 65536) :
    nackBitScan seqNo b blp = (blp &&& (0xffff ^^^ (1 <<< j0)), true) := by
  rw [nackBitScan]
  exact nackBitScan_foldl_match seqNo b blp j0 hj0 hbit hb 16 hj0 le_rfl

theorem nackBitScan_nomatch (seqNo b blp : Nat)
    (h : ∀ j, j < 16 → ¬(blp.testBit j = true ∧ b = (seqNo + j + 1) % 65536)) :
    nackBitScan seqNo b blp = (blp, false) := by
  rw [nackBitScan]
  exact nackBitScan_foldl_nomatch seqNo b blp 16 h

theorem testBit_ge_16_false (blp j : Nat) (hblp : blp < 65536) (hge : 16 ≤ j) :
    blp.testBit j = false := by
  apply Nat.testBit_lt_two_pow
  calc blp < 65536 := hblp
    _ = 2 ^ 16 := by norm_num
    _ ≤ 2 ^ j := Nat.pow_le_pow_right (by norm_num) hge

theorem cleared_zero_bits (blp j0 : Nat) (hblp : blp < 65536) (hj0 : j0 < 16)
    (h0 : blp &&& (0xffff ^^^ (1 <<< j0)) = 0) :
    ∀ j, blp.testBit j = true → j = j0 := by
  intro j hj
  by_contra hne
  have hlt : j < 16 := by
    by_contra hge
    rw [testBit_ge_16_false blp j hblp (by omega)] at hj
    exact Bool.false_ne_true hj
  have hc := cleared_testBit blp j0 j hj0
  rw [h0, Nat.zero_testBit, hj] at hc
  simp [hlt, hne] at hc

theorem nackRequested_iff (seqNo blp : Nat) (e : HistPkt) :
    nackRequested seqNo blp e = true ↔
      (e.seq = seqNo ∨ ∃ i, i < 16 ∧ blp.testBit i = true
        ∧ e.seq = (seqNo + i + 1) % 65536) := by
  simp [nackRequested, List.any_eq_true, List.mem_range]

theorem pne_cons_base_break (seqNo : Nat) (e : HistPkt) (rest : List HistPkt)
    (blp rseq : Nat) (found : Bool) (h1 : e.seq = seqNo) (h0 : blp = 0) :
    processNACKEntry seqNo (e :: rest) blp rseq found
      = ([buildRetransPacket rseq e], (rseq + 1) % 65536) := by
  simp only [processNACKEntry, if_pos h1, if_pos h0]

theorem pne_cons_base_cont (seqNo : Nat) (e : HistPkt) (rest : List HistPkt)
    (blp rseq : Nat) (found : Bool) (h1 : e.seq = seqNo) (h0 : blp ≠ 0) :
    processNACKEntry seqNo (e :: rest) blp rseq found
      = (buildRetransPacket rseq e
          :: (processNACKEntry seqNo rest blp ((rseq + 1) % 65536) true).1,
        (processNACKEntry seqNo rest blp ((rseq + 1) % 65536) true).2) := by
  simp only [processNACKEntry, if_pos h1, if_neg h0]

theorem pne_cons_skip (seqNo : Nat) (e : HistPkt) (rest : List HistPkt)
    (blp rseq : Nat) (found : Bool) (h1 : ¬e.seq = seqNo) (h0 : blp = 0) :
    processNACKEntry seqNo (e :: rest) blp rseq found
      = processNACKEntry seqNo rest blp rseq found := by
  simp only [processNACKEntry, if_neg h1]
  rw [if_neg (by simp [h0])]

theorem pne_cons_scan_nomatch (seqNo : Nat) (e : HistPkt) (rest : List HistPkt)
    (blp rseq : Nat) (found : Bool) (h1 : ¬e.seq = seqNo) (h0 : blp ≠ 0)
    (hsc : (nackBitScan seqNo e.seq blp).2 = false) :
    processNACKEntry seqNo (e :: rest) blp rseq found
      = processNACKEntry seqNo rest blp rseq found := by
  simp only [processNACKEntry, if_neg h1, if_pos h0]
  rw [if_neg (by simp [hsc])]

theorem pne_cons_scan_break (seqNo : Nat) (e : HistPkt) (rest : List HistPkt)
    (blp rseq : Nat) (found : Bool) (h1 : ¬e.seq = seqNo) (h0 : blp ≠ 0)
    (hsc : (nackBitScan seqNo e.seq blp).2 = true)
    (hbr : found = true ∧ (nackBitScan seqNo e.seq blp).1 = 0) :
    processNACKEntry seqNo (e :: rest) blp rseq found
      = ([buildRetransPacket rseq e], (rseq + 1) % 65536) := by
  simp only [processNACKEntry, if_neg h1, if_pos h0]
  rw [if_pos (by simp [hsc]), if_pos hbr]

theorem pne_cons_scan_cont (seqNo : Nat) (e : HistPkt) (rest : List HistPkt)
    (blp rseq : Nat) (found : Bool) (h1 : ¬e.seq = seqNo) (h0 : blp ≠ 0)
    (hsc : (nackBitScan seqNo e.seq blp).2 = true)
    (hbr : ¬(found = true ∧ (nackBitScan seqNo e.seq blp).1 = 0)) :
    processNACKEntry seqNo (e :: rest) blp rseq found
      = (buildRetransPacket rseq e
          :: (processNACKEntry seqNo rest (nackBitScan seqNo e.seq blp).1
              ((rseq + 1) % 65536) found).1,
        (processNACKEntry seqNo rest (nackBitScan seqNo e.seq blp).1
            ((rseq + 1) % 65536) found).2) := by
  simp only [processNACKEntry, if_neg h1, if_pos h0]
  rw [if_pos (by simp [hsc]), if_neg hbr]



theorem processNACKEntry_stamps (seqNo : Nat) :
    ∀ (hist : List HistPkt) (blp rseq : Nat) (found : Bool),
      blp < 65536 →
      (hist.map HistPkt.seq).Nodup →
      (found = true → ∀ e ∈ hist, e.seq ≠ seqNo) →
      (processNACKEntry seqNo hist blp rseq found).1
        = stampAll rseq (hist.filter (nackRequested seqNo blp)) := by
  intro hist
  induction hist with
  | nil => intro blp rseq found _ _ _; rfl
  | cons e rest ih =>
    intro blp rseq found hblp hnd hfound
    have hndrest : (rest.map HistPkt.seq).Nodup := by
      simp only [List.map_cons, List.nodup_cons] at hnd
      exact hnd.2
    have hnotin : e.seq ∉ rest.map HistPkt.seq := by
      simp only [List.map_cons, List.nodup_cons] at hnd
      exact hnd.1
    have hfoundrest : found = true → ∀ e2 ∈ rest, e2.seq ≠ seqNo :=
      fun hf e2 he2 => hfound hf e2 (List.mem_cons_of_mem e he2)
    by_cases h1 : e.seq = seqNo
    · have hreq : nackRequested seqNo blp e = true :=
        (nackRequested_iff seqNo blp e).mpr (Or.inl h1)
      have hrestne : ∀ e2 ∈ rest, e2.seq ≠ seqNo := by
        intro e2 he2 hc
        exact hnotin (h1 ▸ hc ▸ List.mem_map_of_mem HistPkt.seq he2)
      by_cases h0 : blp = 0
      · have hfil : rest.filter (nackRequested seqNo blp) = [] := by
          rw [List.filter_eq_nil_iff]
          intro e2 he2 hc
          rcases (nackRequested_iff seqNo blp e2).mp hc with hl | ⟨i, _, hbit, _⟩
          · exact hrestne e2 he2 hl
          · rw [h0, Nat.zero_testBit] at hbit
            exact Bool.false_ne_true hbit
        rw [pne_cons_base_break seqNo e rest blp rseq found h1 h0,
          List.filter_cons_of_pos hreq, hfil]
        rfl
      · rw [pne_cons_base_cont seqNo e rest blp rseq found h1 h0,
          List.filter_cons_of_pos hreq]
        simp only [stampAll]
        rw [ih blp ((rseq + 1) % 65536) true hblp hndrest (fun _ => hrestne)]
    · by_cases h0 : blp = 0
      · have hreq : ¬nackRequested seqNo blp e = true := by
          intro hc
          rcases (nackRequested_iff seqNo blp e).mp hc with hl | ⟨i, _, hbit, _⟩
          · exact h1 hl
          · rw [h0, Nat.zero_testBit] at hbit
            exact Bool.false_ne_true hbit
        rw [pne_cons_skip seqNo e rest blp rseq found h1 h0,
          List.filter_cons_of_neg hreq]
        exact ih blp rseq found hblp hndrest hfoundrest
      · by_cases hex : ∃ i, i < 16 ∧ blp.testBit i = true
            ∧ e.seq = (seqNo + i + 1) % 65536
        · obtain ⟨j0, hj0, hbit, hb⟩ := hex
          have hscan := nackBitScan_match seqNo e.seq blp j0 hj0 hbit hb
          have hsc2 : (nackBitScan seqNo e.seq blp).2 = true := by rw [hscan]
          have hsc1 : (nackBitScan seqNo e.seq blp).1
              = blp &&& (0xffff ^^^ (1 <<< j0)) := by rw [hscan]
          have hreq : nackRequested seqNo blp e = true :=
            (nackRequested_iff seqNo blp e).mpr (Or.inr ⟨j0, hj0, hbit, hb⟩)
          have hblp2 : blp &&& (0xffff ^^^ (1 <<< j0)) < 65536 :=
            lt_of_le_of_lt Nat.and_le_left hblp
          have hcong : rest.filter
                (nackRequested seqNo (blp &&& (0xffff ^^^ (1 <<< j0))))
              = rest.filter (nackRequested seqNo blp) := by
            apply List.filter_congr
            intro e2 he2
            have hne2 : e2.seq ≠ e.seq :=
              fun hc => hnotin (hc ▸ List.mem_map_of_mem HistPkt.seq he2)
            rw [Bool.eq_iff_iff, nackRequested_iff, nackRequested_iff]
            constructor
            · rintro (hl | ⟨i, hi, hbiti, hbi⟩)
              · exact Or.inl hl
              · rw [cleared_testBit blp j0 i hj0, Bool.and_eq_true] at hbiti
                exact Or.inr ⟨i, hi, hbiti.1, hbi⟩
            · rintro (hl | ⟨i, hi, hbiti, hbi⟩)
              · exact Or.inl hl
              · have hij : i ≠ j0 := by
                  intro hc
                  subst hc
                  exact hne2 (hbi.trans hb.symm)
                refine Or.inr ⟨i, hi, ?_, hbi⟩
                rw [cleared_testBit blp j0 i hj0, hbiti]
                simp [hi, hij]
          by_cases hbr : found = true ∧ (nackBitScan seqNo e.seq blp).1 = 0
          · have hfil : rest.filter (nackRequested seqNo blp) = [] := by
              rw [List.filter_eq_nil_iff]
              intro e2 he2 hc
              have hne2 : e2.seq ≠ e.seq :=
                fun hcc => hnotin (hcc ▸ List.mem_map_of_mem HistPkt.seq he2)
              rcases (nackRequested_iff seqNo blp e2).mp hc with
                hl | ⟨i, hi, hbiti, hbi⟩
              · exact hfound hbr.1 e2 (List.mem_cons_of_mem e he2) hl
              · have hzero : blp &&& (0xffff ^^^ (1 <<< j0)) = 0 := by
                  rw [← hsc1]
                  exact hbr.2
                have hieq : i = j0 := cleared_zero_bits blp j0 hblp hj0 hzero i hbiti
                subst hieq
                exact hne2 (hbi.trans hb.symm)
            rw [pne_cons_scan_break seqNo e rest blp rseq found h1 h0 hsc2 hbr,
              List.filter_cons_of_pos hreq, hfil]
            rfl
          · rw [pne_cons_scan_cont seqNo e rest blp rseq found h1 h0 hsc2 hbr,
              List.filter_cons_of_pos hreq]
            simp only [stampAll]
            rw [hsc1, ih (blp &&& (0xffff ^^^ (1 <<< j0))) ((rseq + 1) % 65536)
              found hblp2 hndrest hfoundrest, hcong]
        · push_neg at hex
          have hscan := nackBitScan_nomatch seqNo e.seq blp
            (fun j hj hc => hex j hj hc.1 hc.2)
          have hsc2 : (nackBitScan seqNo e.seq blp).2 = false := by rw [hscan]
          have hreq : ¬nackRequested seqNo blp e = true := by
            intro hc
            rcases (nackRequested_iff seqNo blp e).mp hc with
              hl | ⟨i, hi, hbiti, hbi⟩
            · exact h1 hl
            · exact hex i hi hbiti hbi
          rw [pne_cons_scan_nomatch seqNo e rest blp rseq found h1 h0 hsc2,
            List.filter_cons_of_neg hreq]
          exact ih blp rseq found hblp hndrest hfoundrest


theorem stampAll_length : ∀ (l : List HistPkt) (c : Nat),
    (stampAll c l).length = l.length := by
  intro l
  induction l with
  | nil => intro c; rfl
  | cons e rest ih =>
    intro c
    simp only [stampAll, List.length_cons, ih]

theorem stampAll_getD : ∀ (l : List HistPkt) (c j : Nat), c < 65536 →
    j < l.length →
    (stampAll c l).getD j [] = buildRetransPacket ((c + j) % 65536)
      (l.getD j default) := by
  intro l
  induction l with
  | nil =>
    intro c j _ hj
    exact absurd hj (by simp)
  | cons e rest ih =>
    intro c j hc hj
    cases j with
    | zero =>
      simp only [stampAll, List.getD_cons_zero]
      rw [Nat.add_zero, Nat.mod_eq_of_lt hc]
    | succ j2 =>
      simp only [stampAll, List.getD_cons_succ]
      rw [ih ((c + 1) % 65536) j2 (Nat.mod_lt _ (by norm_num)) (by simpa using hj)]
      congr 1
      omega

theorem nackRequested_split (seqNo blp : Nat) (e : HistPkt)
    (h : ¬e.seq = seqNo) :
    nackRequested seqNo blp e
      = ((List.range 16).any fun i =>
          blp.testBit i && decide (e.seq = (seqNo + i + 1) % 65536)) := by
  have hd : decide (e.seq = seqNo) = false := decide_eq_false h
  simp only [nackRequested, hd, Bool.false_or]

theorem bitOnly_false_at_base (seqNo blp : Nat) (e : HistPkt)
    (h : e.seq = seqNo) :
    ((List.range 16).any fun i =>
      blp.testBit i && decide (e.seq = (seqNo + i + 1) % 65536)) = false := by
  rw [← Bool.not_eq_true]
  intro hc
  simp only [List.any_eq_true, List.mem_range, Bool.and_eq_true,
    decide_eq_true_eq] at hc
  obtain ⟨i, hi, _, hbi⟩ := hc
  rw [h] at hbi
  omega

theorem filter_requested_length (seqNo blp : Nat) :
    ∀ hist : List HistPkt, (hist.map HistPkt.seq).Nodup →
      seqNo ∈ hist.map HistPkt.seq →
      (hist.filter (nackRequested seqNo blp)).length
        = (hist.filter (fun e => (List.range 16).any fun i =>
            blp.testBit i && decide (e.seq = (seqNo + i + 1) % 65536))).length
          + 1 := by
  intro hist
  induction hist with
  | nil =>
    intro _ hmem
    exact absurd hmem (by simp)
  | cons e rest ih =>
    intro hnd hmem
    have hndrest : (rest.map HistPkt.seq).Nodup := by
      simp only [List.map_cons, List.nodup_cons] at hnd
      exact hnd.2
    have hnotin : e.seq ∉ rest.map HistPkt.seq := by
      simp only [List.map_cons, List.nodup_cons] at hnd
      exact hnd.1
    by_cases h1 : e.seq = seqNo
    · have hreq : nackRequested seqNo blp e = true :=
        (nackRequested_iff seqNo blp e).mpr (Or.inl h1)
      have hbitfalse := bitOnly_false_at_base seqNo blp e h1
      have hcong : rest.filter (nackRequested seqNo blp)
          = rest.filter (fun e2 => (List.range 16).any fun i =>
              blp.testBit i && decide (e2.seq = (seqNo + i + 1) % 65536)) := by
        apply List.filter_congr
        intro e2 he2
        have hne2 : ¬e2.seq = seqNo := by
          intro hc
          exact hnotin (h1 ▸ hc ▸ List.mem_map_of_mem HistPkt.seq he2)
        exact nackRequested_split seqNo blp e2 hne2
      simp only [List.filter_cons, hreq, hbitfalse, reduceIte,
        List.length_cons]
      rw [hcong, if_neg Bool.false_ne_true]
    · have hmem2 : seqNo ∈ rest.map HistPkt.seq := by
        simp only [List.map_cons, List.mem_cons] at hmem
        rcases hmem with hl | hr
        · exact absurd hl.symm h1
        · exact hr
      have hsplit := nackRequested_split seqNo blp e h1
      by_cases hb : ((List.range 16).any fun i =>
          blp.testBit i && decide (e.seq = (seqNo + i + 1) % 65536)) = true
      · have hreq2 : nackRequested seqNo blp e = true := hsplit.trans hb
        simp only [List.filter_cons, hreq2, hb, reduceIte, List.length_cons]
        rw [ih hndrest hmem2]
      · have hbf : ((List.range 16).any fun i =>
            blp.testBit i && decide (e.seq = (seqNo + i + 1) % 65536))
              = false := Bool.eq_false_iff.mpr hb
        have hreq3 : nackRequested seqNo blp e = false := hsplit.trans hbf
        simp only [List.filter_cons, hreq3, hbf, reduceIte]
        rw [if_neg Bool.false_ne_true, if_neg Bool.false_ne_true]
        exact ih hndrest hmem2

theorem exists_split12 (l : List Nat) (h : 12 ≤ l.length) :
    ∃ b0 b1 b2 b3 b4 b5 b6 b7 b8 b9 b10 b11 t,
      l = b0 :: b1 :: b2 :: b3 :: b4 :: b5 :: b6 :: b7 :: b8 :: b9 :: b10
        :: b11 :: t := by
  rcases l with _ | ⟨b0, _ | ⟨b1, _ | ⟨b2, _ | ⟨b3, _ | ⟨b4, _ | ⟨b5, _ |
    ⟨b6, _ | ⟨b7, _ | ⟨b8, _ | ⟨b9, _ | ⟨b10, _ | ⟨b11, t⟩⟩⟩⟩⟩⟩⟩⟩⟩⟩⟩⟩ <;>
    first
      | exact ⟨_, _, _, _, _, _, _, _, _, _, _, _, _, rfl⟩
      | simp at h

theorem buildRetransPacket_framing (c : Nat) (p : HistPkt)
    (hc : c < 65536) (hs : p.seq < 65536) (hlen : 12 ≤ p.bytes.length) :
    (buildRetransPacket c p).length = p.bytes.length + 2 ∧
    (buildRetransPacket c p).take 2 = p.bytes.take 2 ∧
    U16At (buildRetransPacket c p) 2 = c ∧
    ((buildRetransPacket c p).take 12).drop 4 = (p.bytes.take 12).drop 4 ∧
    U16At (buildRetransPacket c p) 12 = p.seq ∧
    (buildRetransPacket c p).drop 14 = p.bytes.drop 12 := by
  obtain ⟨b0, b1, b2, b3, b4, b5, b6, b7, b8, b9, b10, b11, t, hb⟩ :=
    exists_split12 p.bytes hlen
  have h2 := be16_decode c hc
  have h12 := be16_decode p.seq hs
  refine ⟨?_, ?_, ?_, ?_, ?_, ?_⟩
  · simp [buildRetransPacket, hb]
  · simp [buildRetransPacket, hb]
  · simp [U16At, buildRetransPacket, hb, h2]
  · simp [buildRetransPacket, hb]
  · simp [U16At, buildRetransPacket, hb, h12]
  · simp [buildRetransPacket, hb]

/-- C6: for a NACK entry whose base sequence number is in the retransmission
history (entries carrying 16-bit sequence numbers, no duplicates, each at
least 12 bytes long), the handler emits exactly k plus 1 retransmission
packets, where k counts the history entries matched by set bitmask bits
(bit i matching sequence number base + i + 1 mod 65536): the packets are,
in history order, the requested entries stamped with consecutively
incremented retransmission counters starting at the current counter, and
the j-th packet is the matched entry with its first two header bytes
preserved, bytes 2-3 replaced by the fresh counter, header bytes 4-11
preserved, bytes 12-13 holding the original sequence number big-endian, and
the original payload unchanged from byte 14 on. -/
theorem C6_nack_retransmission_count_and_framing
    (seqNo blp rseq : Nat) (hist : List HistPkt)
    (hblp : blp < 65536) (hrseq : rseq < 65536)
    (hnd : (hist.map HistPkt.seq).Nodup)
    (hmem : seqNo ∈ hist.map HistPkt.seq)
    (hwf : ∀ e ∈ hist, e.seq < 65536 ∧ 12 ≤ e.bytes.length) :
    (processNACKEntry seqNo hist blp rseq false).1
        = stampAll rseq (hist.filter (nackRequested seqNo blp)) ∧
    (processNACKEntry seqNo hist blp rseq false).1.length
        = (hist.filter (fun e => (List.range 16).any fun i =>
            blp.testBit i && decide (e.seq = (seqNo + i + 1) % 65536))).length
          + 1 ∧
    ∀ j, j < (processNACKEntry seqNo hist blp rseq false).1.length →
      ∃ p, p ∈ hist ∧ nackRequested seqNo blp p = true ∧
        (processNACKEntry seqNo hist blp rseq false).1.getD j []
          = buildRetransPacket ((rseq + j) % 65536) p ∧
        ((processNACKEntry seqNo hist blp rseq false).1.getD j []).take 2
          = p.bytes.take 2 ∧
        U16At ((processNACKEntry seqNo hist blp rseq false).1.getD j []) 2
          = (rseq + j) % 65536 ∧
        (((processNACKEntry seqNo hist blp rseq false).1.getD j []).take
            12).drop 4
          = (p.bytes.take 12).drop 4 ∧
        U16At ((processNACKEntry seqNo hist blp rseq false).1.getD j []) 12
          = p.seq ∧
        ((processNACKEntry seqNo hist blp rseq false).1.getD j []).drop 14
          = p.bytes.drop 12 := by
  have hmain := processNACKEntry_stamps seqNo hist blp rseq false hblp hnd
    (fun hf => absurd hf Bool.false_ne_true)
  refine ⟨hmain, ?_, ?_⟩
  · rw [hmain, stampAll_length]
    exact filter_requested_length seqNo blp hist hnd hmem
  · intro j hj
    have hjF : j < (hist.filter (nackRequested seqNo blp)).length := by
      rw [hmain, stampAll_length] at hj
      exact hj
    have hgd : (hist.filter (nackRequested seqNo blp)).getD j default
        ∈ hist.filter (nackRequested seqNo blp) := by
      rw [List.getD_eq_getElem _ _ hjF]
      exact List.getElem_mem hjF
    obtain ⟨hpmem, hpreq⟩ := List.mem_filter.mp hgd
    obtain ⟨hps, hpl⟩ := hwf _ hpmem
    have hout : (processNACKEntry seqNo hist blp rseq false).1.getD j []
        = buildRetransPacket ((rseq + j) % 65536)
            ((hist.filter (nackRequested seqNo blp)).getD j default) := by
      rw [hmain]
      exact stampAll_getD _ rseq j hrseq hjF
    have hframe := buildRetransPacket_framing ((rseq + j) % 65536)
      ((hist.filter (nackRequested seqNo blp)).getD j default)
      (Nat.mod_lt _ (by norm_num)) hps hpl
    refine ⟨_, hpmem, hpreq, hout, ?_, ?_, ?_, ?_, ?_⟩
    · rw [hout]
      exact hframe.2.1
    · rw [hout]
      exact hframe.2.2.1
    · rw [hout]
      exact hframe.2.2.2.1
    · rw [hout]
      exact hframe.2.2.2.2.1
    · rw [hout]
      exact hframe.2.2.2.2.2

theorem C6_nack_retransmission_count_and_framing_witness :
    (processNACKEntry 10 [HistPkt.mk 10 (List.range 16), HistPkt.mk 11 (List.range 16), HistPkt.mk 13 (List.range 16)] 5 100 false).1
        = stampAll 100 ([HistPkt.mk 10 (List.range 16), HistPkt.mk 11 (List.range 16), HistPkt.mk 13 (List.range 16)].filter (nackRequested 10 5)) ∧
    (processNACKEntry 10 [HistPkt.mk 10 (List.range 16), HistPkt.mk 11 (List.range 16), HistPkt.mk 13 (List.range 16)] 5 100 false).1.length
        = ([HistPkt.mk 10 (List.range 16), HistPkt.mk 11 (List.range 16), HistPkt.mk 13 (List.range 16)].filter (fun e => (List.range 16).any fun i =>
            Nat.testBit 5 i && decide (e.seq = (10 + i + 1) % 65536))).length
          + 1 ∧
    ∀ j, j < (processNACKEntry 10 [HistPkt.mk 10 (List.range 16), HistPkt.mk 11 (List.range 16), HistPkt.mk 13 (List.range 16)] 5 100 false).1.length →
      ∃ p, p ∈ [HistPkt.mk 10 (List.range 16), HistPkt.mk 11 (List.range 16), HistPkt.mk 13 (List.range 16)] ∧ nackRequested 10 5 p = true ∧
        (processNACKEntry 10 [HistPkt.mk 10 (List.range 16), HistPkt.mk 11 (List.range 16), HistPkt.mk 13 (List.range 16)] 5 100 false).1.getD j []
          = buildRetransPacket ((100 + j) % 65536) p ∧
        ((processNACKEntry 10 [HistPkt.mk 10 (List.range 16), HistPkt.mk 11 (List.range 16), HistPkt.mk 13 (List.range 16)] 5 100 false).1.getD j []).take 2
          = p.bytes.take 2 ∧
        U16At ((processNACKEntry 10 [HistPkt.mk 10 (List.range 16), HistPkt.mk 11 (List.range 16), HistPkt.mk 13 (List.range 16)] 5 100 false).1.getD j []) 2
          = (100 + j) % 65536 ∧
        (((processNACKEntry 10 [HistPkt.mk 10 (List.range 16), HistPkt.mk 11 (List.range 16), HistPkt.mk 13 (List.range 16)] 5 100 false).1.getD j []).take
            12).drop 4
          = (p.bytes.take 12).drop 4 ∧
        U16At ((processNACKEntry 10 [HistPkt.mk 10 (List.range 16), HistPkt.mk 11 (List.range 16), HistPkt.mk 13 (List.range 16)] 5 100 false).1.getD j []) 12
          = p.seq ∧
        ((processNACKEntry 10 [HistPkt.mk 10 (List.range 16), HistPkt.mk 11 (List.range 16), HistPkt.mk 13 (List.range 16)] 5 100 false).1.getD j []).drop 14
          = p.bytes.drop 12 :=
  C6_nack_retransmission_count_and_framing 10 5 100
    [HistPkt.mk 10 (List.range 16), HistPkt.mk 11 (List.range 16), HistPkt.mk 13 (List.range 16)]
    (by decide) (by decide) (by decide) (by decide) (by decide)

end WifiDisplaySender
